import Mathlib

/-!
Verification of the JSON-to-Word document generator (`json_to_word.py`).

The program is a linear, stateless transformation: a JSON record set
partitioned into five fixed categories (TypeA .. TypeE) is rendered, one
section per present category, into an append-only sequence of document
blocks (headings, paragraphs, tables), which is saved at the very end.

Shallow embedding conventions:
* JSON/Python values are modelled by `JValue`; Python `str()` is `pyStr`.
* The in-progress `docx` document is a `List Block`; every method of
  `DocumentGenerator` that appends to `self.doc` is a function taking the
  current block list and returning the extended one.
* Fallible Python operations (dict key access `d[k]`, iteration over a
  non-iterable, out-of-range cell indexing in `add_table`, `.items()` on a
  non-dict, `.title()` on a non-string) are modelled in `Except String`;
  an `Except.error` is a raised-and-propagated Python exception.  The final
  `doc.save(...)` is the only materialisation point, so a run produces an
  output artifact iff the whole computation is `Except.ok`.
* The template YAML (`text_templates.yaml`, external configuration, not part
  of the repository sources) is a mapping from category key (`"type_a"`, ...)
  to an entry carrying the section title and the three header lists / table
  titles; entries are modelled by the structure `TemplateEntry` and the
  mapping by an association list, looked up with Python dict semantics.
-/

/-- A JSON / Python value as manipulated by the generator: strings, ints,
booleans, lists, and (insertion-ordered) dicts. -/
inductive JValue where
  | s (v : String)
  | i (v : Int)
  | b (v : Bool)
  | arr (elems : List JValue)
  | obj (fields : List (String × JValue))

mutual
/-- Structural boolean equality of values, as used by Python `in` on lists. -/
def jvalBeq : JValue → JValue → Bool
  | .s a, .s b => a == b
  | .i a, .i b => a == b
  | .b a, .b b => a == b
  | .arr a, .arr b => jvalBeqList a b
  | .obj a, .obj b => jvalBeqFields a b
  | _, _ => false

/-- Elementwise `jvalBeq` on lists. -/
def jvalBeqList : List JValue → List JValue → Bool
  | [], [] => true
  | a :: as, b :: bs => jvalBeq a b && jvalBeqList as bs
  | _, _ => false

/-- Elementwise `jvalBeq` on dict entries. -/
def jvalBeqFields : List (String × JValue) → List (String × JValue) → Bool
  | [], [] => true
  | (k1, v1) :: as, (k2, v2) :: bs => k1 == k2 && jvalBeq v1 v2 && jvalBeqFields as bs
  | _, _ => false
end

instance : BEq JValue := ⟨jvalBeq⟩

instance {ε α : Type} [DecidableEq ε] [DecidableEq α] : DecidableEq (Except ε α) := fun x y =>
  match x, y with
  | .error a, .error b => decidable_of_iff (a = b) (by simp)
  | .ok a, .ok b => decidable_of_iff (a = b) (by simp)
  | .error _, .ok _ => isFalse (fun h => Except.noConfusion h)
  | .ok _, .error _ => isFalse (fun h => Except.noConfusion h)

/-- The single-quote character used by Python `repr` of strings. -/
def pyQuote : String := String.singleton (Char.ofNat 39)

mutual
/-- Python `repr` of a value (used for elements of containers by `str`). -/
def pyRepr : JValue → String
  | .s v => pyQuote ++ v ++ pyQuote
  | .i v => toString v
  | .b true => "True"
  | .b false => "False"
  | .arr es => "[" ++ String.intercalate ", " (pyReprList es) ++ "]"
  | .obj fs => "\x7b" ++ String.intercalate ", " (pyReprFields fs) ++ "\x7d"

/-- Python repr of the elements of a list. -/
def pyReprList : List JValue → List String
  | [] => []
  | v :: vs => pyRepr v :: pyReprList vs

/-- Python repr of the key/value pairs of a dict. -/
def pyReprFields : List (String × JValue) → List String
  | [] => []
  | (k, v) :: fs => (pyQuote ++ k ++ pyQuote ++ ": " ++ pyRepr v) :: pyReprFields fs
end

/-- Python `str()` of a value: strings unchanged, otherwise `repr`. -/
def pyStr : JValue → String
  | .s v => v
  | v => pyRepr v

/-- Python truthiness of a value (`if x:`). -/
def pyTruthy : JValue → Bool
  | .s v => v != ""
  | .i v => v != 0
  | .b v => v
  | .arr es => !es.isEmpty
  | .obj fs => !fs.isEmpty

/-- Dict subscription `d[k]`: `KeyError` when the key is absent, `TypeError`
when the value is not a dict (string/int/bool/list subscripted by a string
all raise in Python). -/
def JValue.getKey : JValue → String → Except String JValue
  | .obj fs, k =>
    match fs.lookup k with
    | some v => Except.ok v
    | none => Except.error ("KeyError: " ++ k)
  | _, _ => Except.error "TypeError: value is not subscriptable by string"

/-- Python iteration (`for x in v` / `enumerate(v)`): lists yield elements,
dicts yield their keys, strings yield 1-character strings, ints and booleans
raise `TypeError`. -/
def JValue.iter : JValue → Except String (List JValue)
  | .arr es => Except.ok es
  | .obj fs => Except.ok (fs.map (fun p => JValue.s p.1))
  | .s v => Except.ok (v.toList.map (fun c => JValue.s (String.singleton c)))
  | _ => Except.error "TypeError: value is not iterable"

/-- Python `d.items()`: the key/value pairs of a dict, `AttributeError`
otherwise. -/
def JValue.itemsOf : JValue → Except String (List (String × JValue))
  | .obj fs => Except.ok fs
  | _ => Except.error "AttributeError: no attribute items"

/-- Python `v.title()` needs a string receiver (`AttributeError` otherwise). -/
def JValue.asStr : JValue → Except String String
  | .s v => Except.ok v
  | _ => Except.error "AttributeError: no attribute title"

/-- Helper for `pyTitle`: the boolean records whether the previous character
was alphabetic. -/
def pyTitleAux : List Char → Bool → List Char
  | [], _ => []
  | c :: cs, prevAlpha =>
    if c.isAlpha then
      (if prevAlpha then c.toLower else c.toUpper) :: pyTitleAux cs true
    else c :: pyTitleAux cs false

/-- Python `str.title()`: first letter of every alphabetic run uppercased,
the rest lowercased. -/
def pyTitle (v : String) : String := String.mk (pyTitleAux v.toList false)

/-- Python `k in v` (membership test): key membership for dicts, element
membership for lists, substring test for strings, `TypeError` otherwise. -/
def pyIn (k : String) : JValue → Except String Bool
  | .obj fs => Except.ok (fs.any (fun p => p.1 == k))
  | .arr es => Except.ok (es.any (fun v => v == JValue.s k))
  | .s v => Except.ok (k == "" || (v.splitOn k).length != 1)
  | _ => Except.error "TypeError: argument is not a container"

/-- One rendered table cell: its text and whether its run is bold. -/
structure Cell where
  text : String
  bold : Bool
  deriving DecidableEq, Repr

/-- One document block: a level-1 heading, a paragraph (list of text runs
with their boldness; the empty list is a blank spacing paragraph), or a
table (list of rows of cells). -/
inductive Block where
  | heading (text : String)
  | para (runs : List (String × Bool))
  | table (rows : List (List Cell))
  deriving DecidableEq, Repr

/-- One entry of the template mapping: the section title plus headers and
title for each of the three tables of a category. -/
structure TemplateEntry where
  title : String
  table1_headers : List String
  table1_title : String
  table2_headers : List String
  table2_title : String
  table3_headers : List String
  table3_title : String
  deriving DecidableEq, Repr

/-- The loaded template mapping (`yaml.safe_load` of the template file):
category key to entry. -/
abbrev Templates := List (String × TemplateEntry)

/-- Template access `self.templates[key]`: dict access into the template
mapping. -/
def templateLookup (tpls : Templates) (key : String) : Except String TemplateEntry :=
  match tpls.lookup key with
  | some t => Except.ok t
  | none => Except.error ("KeyError: " ++ key)

/-- Method `add_title`: append a centered level-1 heading (centering is
presentational and not tracked) followed by a blank paragraph. -/
def add_title (doc : List Block) (text : String) : List Block :=
  doc ++ [Block.heading text, Block.para []]

/-- The cells of one data row of a table with `ncols` columns after the
writes `row_cells[i].text = str(cell_data)`: the supplied values in order,
the remaining cells left empty.  (No truncation happens: the loop indexes by
the indices of the row itself.) -/
def padRow (ncols : Nat) (vals : List String) : List Cell :=
  vals.map (fun v => Cell.mk v false) ++
    List.replicate (ncols - vals.length) (Cell.mk "" false)

/-- Write one data row into a fresh row of a table with `ncols` cells:
`row_cells[i]` is out of range (`IndexError`) as soon as the row is longer
than the header row. -/
def fillCells (ncols : Nat) (row : List JValue) : Except String (List Cell) :=
  if row.length ≤ ncols then Except.ok (padRow ncols (row.map pyStr))
  else Except.error "IndexError: list index out of range"

/-- The header row of a table: each header cell run made bold. -/
def headerCells (headers : List String) : List Cell :=
  headers.map (fun h => Cell.mk h true)

/-- Method `add_table`: optionally a bold title paragraph (Python treats an
empty title as falsy, so the
paragraph is skipped both for `None` and for an empty string), then a table
whose first row is the bold header row followed by one row per supplied data
row, then a blank spacing paragraph. -/
def add_table (doc : List Block) (headers : List String) (rows : List (List JValue))
    (title : Option String) : Except String (List Block) := do
  let doc := match title with
    | some t => if t = "" then doc else doc ++ [Block.para [(t, true)]]
    | none => doc
  let dataRows ← rows.mapM (fillCells headers.length)
  pure (doc ++ [Block.table (headerCells headers :: dataRows), Block.para []])

/-- The Table-1 row of one TypeA record: its id, name and description
fields, in that order. -/
def typeAItemRow (item : JValue) : Except String (List JValue) := do
  let idv ← item.getKey "id"
  let nm ← item.getKey "name"
  let ds ← item.getKey "description"
  pure [idv, nm, ds]

/-- The Table-2 row of one TypeA record, from its nested `parameters`. -/
def typeAParamRow (item : JValue) : Except String (List JValue) := do
  let params ← item.getKey "parameters"
  let st ← params.getKey "status"
  let pr ← params.getKey "priority"
  let lu ← params.getKey "last_updated"
  pure [st, pr, lu]

/-- The body of the TypeA per-record loop (one `add_table` call for
Table 2). -/
def typeAStep (template : TemplateEntry) (doc : List Block) (item : JValue) :
    Except String (List Block) := do
  let row ← typeAParamRow item
  add_table doc template.table2_headers [row] (some template.table2_title)

/-- Processor `process_type_a`: section title, one aggregated Table 1 (a row per
record), one Table 2 per record, one aggregated Table 3 (`len(data)`). -/
def process_type_a (tpls : Templates) (doc : List Block) (data : JValue) :
    Except String (List Block) := do
  let template ← templateLookup tpls "type_a"
  let doc := add_title doc template.title
  let items ← data.iter
  let rows ← items.mapM typeAItemRow
  let doc ← add_table doc template.table1_headers rows (some template.table1_title)
  let doc ← items.foldlM (typeAStep template) doc
  add_table doc template.table3_headers
    [[JValue.s "Total Devices", JValue.i items.length]] (some template.table3_title)

/-- The body of the TypeB per-record loop: Table 1, Table 2, Table 3 for one
record. -/
def typeBStep (template : TemplateEntry) (doc : List Block) (item : JValue) :
    Except String (List Block) := do
  let cid ← item.getKey "component_id"
  let inst ← item.getKey "installation_date"
  let doc ← add_table doc template.table1_headers [[cid, inst]] (some template.table1_title)
  let specs ← item.getKey "specs"
  let kvs ← specs.itemsOf
  let doc ← add_table doc template.table2_headers
    (kvs.map (fun kv => [JValue.s kv.1, kv.2])) (some template.table2_title)
  let manu ← specs.getKey "manufacturer"
  add_table doc template.table3_headers
    [[JValue.s "Manufacturer", manu]] (some template.table3_title)

/-- Processor `process_type_b`: section title, then the three tables once per record. -/
def process_type_b (tpls : Templates) (doc : List Block) (data : JValue) :
    Except String (List Block) := do
  let template ← templateLookup tpls "type_b"
  let doc := add_title doc template.title
  let items ← data.iter
  items.foldlM (typeBStep template) doc

/-- The body of the TypeC per-record loop. -/
def typeCStep (template : TemplateEntry) (doc : List Block) (item : JValue) :
    Except String (List Block) := do
  let tid ← item.getKey "transaction_id"
  let amt ← item.getKey "amount"
  let cur ← item.getKey "currency"
  let doc ← add_table doc template.table1_headers [[tid, amt, cur]] (some template.table1_title)
  let parties ← (← item.getKey "parties").iter
  let doc ← add_table doc template.table2_headers
    (parties.enum.map (fun p => [JValue.i (p.1 + 1), p.2])) (some template.table2_title)
  let appr ← item.getKey "approved"
  add_table doc template.table3_headers
    [[JValue.s "Approved", JValue.s (if pyTruthy appr then "Yes" else "No")]]
    (some template.table3_title)

/-- Processor `process_type_c`: section title, then the three tables once per record. -/
def process_type_c (tpls : Templates) (doc : List Block) (data : JValue) :
    Except String (List Block) := do
  let template ← templateLookup tpls "type_c"
  let doc := add_title doc template.title
  let items ← data.iter
  items.foldlM (typeCStep template) doc

/-- The body of the TypeD per-record loop. -/
def typeDStep (template : TemplateEntry) (doc : List Block) (item : JValue) :
    Except String (List Block) := do
  let tid ← item.getKey "test_id"
  let env ← item.getKey "environment"
  let doc ← add_table doc template.table1_headers [[tid, env]] (some template.table1_title)
  let metrics ← item.getKey "metrics"
  let kvs ← metrics.itemsOf
  let doc ← add_table doc template.table2_headers
    (kvs.map (fun kv => [JValue.s (pyTitle (kv.1.replace "_" " ")), kv.2]))
    (some template.table2_title)
  let env2 ← item.getKey "environment"
  let envStr ← env2.asStr
  add_table doc template.table3_headers
    [[JValue.s "Environment Type", JValue.s (pyTitle envStr)]] (some template.table3_title)

/-- Processor `process_type_d`: section title, then the three tables once per record. -/
def process_type_d (tpls : Templates) (doc : List Block) (data : JValue) :
    Except String (List Block) := do
  let template ← templateLookup tpls "type_d"
  let doc := add_title doc template.title
  let items ← data.iter
  items.foldlM (typeDStep template) doc

/-- The body of the TypeE per-record loop. -/
def typeEStep (template : TemplateEntry) (doc : List Block) (item : JValue) :
    Except String (List Block) := do
  let eid ← item.getKey "employee_id"
  let dep ← item.getKey "department"
  let rl ← item.getKey "role"
  let doc ← add_table doc template.table1_headers [[eid, dep, rl]] (some template.table1_title)
  let projects ← (← item.getKey "projects").iter
  let doc ← add_table doc template.table2_headers
    (projects.enum.map (fun p => [JValue.i (p.1 + 1), p.2])) (some template.table2_title)
  let projects2 ← (← item.getKey "projects").iter
  add_table doc template.table3_headers
    [[JValue.s "Total Projects", JValue.i projects2.length]] (some template.table3_title)

/-- Processor `process_type_e`: section title, then the three tables once per record. -/
def process_type_e (tpls : Templates) (doc : List Block) (data : JValue) :
    Except String (List Block) := do
  let template ← templateLookup tpls "type_e"
  let doc := add_title doc template.title
  let items ← data.iter
  items.foldlM (typeEStep template) doc

/-- One membership-guarded section of the source: if the category key is
in `objects`, run its processor on the looked-up record list. -/
def catSection (tpls : Templates) (objects : JValue) (doc : List Block) (name : String)
    (processX : Templates → List Block → JValue → Except String (List Block)) :
    Except String (List Block) := do
  let cond ← pyIn name objects
  if cond then do
    let data ← objects.getKey name
    processX tpls doc data
  else pure doc

/-- Driver `generate_document`: take `objects` from the input (defaulting
to an empty mapping),
process the five known categories in fixed order when present, and save.
An `Except.ok` result is a successfully saved document (the save is the
single materialisation point); any `Except.error` aborts before saving, so
no artifact is produced. -/
def generate_document (tpls : Templates) (json_data : List (String × JValue)) :
    Except String (List Block) := do
  let objects := (json_data.lookup "objects").getD (JValue.obj [])
  let doc ← catSection tpls objects [] "TypeA" process_type_a
  let doc ← catSection tpls objects doc "TypeB" process_type_b
  let doc ← catSection tpls objects doc "TypeC" process_type_c
  let doc ← catSection tpls objects doc "TypeD" process_type_d
  let doc ← catSection tpls objects doc "TypeE" process_type_e
  pure doc

/-! ## Spec-shaped (compositional) renderings

The following definitions restate the rendering in the shape used by the
ordering invariant of the specification: per-record block groups, concatenated in
category order × record order × table order.  They are related to the source
translation above by the refinement theorems further down. -/

/-- The blocks contributed by an optional table title: a single bold
paragraph for a non-empty title, nothing otherwise. -/
def titleBlocksOf : Option String → List Block
  | some t => if t = "" then [] else [Block.para [(t, true)]]
  | none => []

/-- The blocks appended by one `add_table` call, independent of the document
they are appended to. -/
def add_tableBlocks (headers : List String) (rows : List (List JValue))
    (title : Option String) : Except String (List Block) := do
  let dataRows ← rows.mapM (fillCells headers.length)
  pure (titleBlocksOf title ++ [Block.table (headerCells headers :: dataRows), Block.para []])

/-- The block group of one successful titled `add_table` call whose data
rows all fit into the header width. -/
def titledTable (headers : List String) (rows : List (List JValue)) (t : String) :
    List Block :=
  titleBlocksOf (some t) ++
    [Block.table (headerCells headers :: rows.map (fun r => padRow headers.length (r.map pyStr))),
     Block.para []]

/-- The blocks of the TypeA per-record loop body (its Table 2). -/
def typeARecordBlocks (template : TemplateEntry) (item : JValue) :
    Except String (List Block) := do
  let row ← typeAParamRow item
  add_tableBlocks template.table2_headers [row] (some template.table2_title)

/-- The three table groups of one TypeB record, in table order. -/
def typeBRecordBlocks (template : TemplateEntry) (item : JValue) :
    Except String (List Block) := do
  let cid ← item.getKey "component_id"
  let inst ← item.getKey "installation_date"
  let b1 ← add_tableBlocks template.table1_headers [[cid, inst]] (some template.table1_title)
  let specs ← item.getKey "specs"
  let kvs ← specs.itemsOf
  let b2 ← add_tableBlocks template.table2_headers
    (kvs.map (fun kv => [JValue.s kv.1, kv.2])) (some template.table2_title)
  let manu ← specs.getKey "manufacturer"
  let b3 ← add_tableBlocks template.table3_headers
    [[JValue.s "Manufacturer", manu]] (some template.table3_title)
  pure (b1 ++ b2 ++ b3)

/-- The three table groups of one TypeC record, in table order. -/
def typeCRecordBlocks (template : TemplateEntry) (item : JValue) :
    Except String (List Block) := do
  let tid ← item.getKey "transaction_id"
  let amt ← item.getKey "amount"
  let cur ← item.getKey "currency"
  let b1 ← add_tableBlocks template.table1_headers [[tid, amt, cur]] (some template.table1_title)
  let parties ← (← item.getKey "parties").iter
  let b2 ← add_tableBlocks template.table2_headers
    (parties.enum.map (fun p => [JValue.i (p.1 + 1), p.2])) (some template.table2_title)
  let appr ← item.getKey "approved"
  let b3 ← add_tableBlocks template.table3_headers
    [[JValue.s "Approved", JValue.s (if pyTruthy appr then "Yes" else "No")]]
    (some template.table3_title)
  pure (b1 ++ b2 ++ b3)

/-- The three table groups of one TypeD record, in table order. -/
def typeDRecordBlocks (template : TemplateEntry) (item : JValue) :
    Except String (List Block) := do
  let tid ← item.getKey "test_id"
  let env ← item.getKey "environment"
  let b1 ← add_tableBlocks template.table1_headers [[tid, env]] (some template.table1_title)
  let metrics ← item.getKey "metrics"
  let kvs ← metrics.itemsOf
  let b2 ← add_tableBlocks template.table2_headers
    (kvs.map (fun kv => [JValue.s (pyTitle (kv.1.replace "_" " ")), kv.2]))
    (some template.table2_title)
  let env2 ← item.getKey "environment"
  let envStr ← env2.asStr
  let b3 ← add_tableBlocks template.table3_headers
    [[JValue.s "Environment Type", JValue.s (pyTitle envStr)]] (some template.table3_title)
  pure (b1 ++ b2 ++ b3)

/-- The three table groups of one TypeE record, in table order. -/
def typeERecordBlocks (template : TemplateEntry) (item : JValue) :
    Except String (List Block) := do
  let eid ← item.getKey "employee_id"
  let dep ← item.getKey "department"
  let rl ← item.getKey "role"
  let b1 ← add_tableBlocks template.table1_headers [[eid, dep, rl]] (some template.table1_title)
  let projects ← (← item.getKey "projects").iter
  let b2 ← add_tableBlocks template.table2_headers
    (projects.enum.map (fun p => [JValue.i (p.1 + 1), p.2])) (some template.table2_title)
  let projects2 ← (← item.getKey "projects").iter
  let b3 ← add_tableBlocks template.table3_headers
    [[JValue.s "Total Projects", JValue.i projects2.length]] (some template.table3_title)
  pure (b1 ++ b2 ++ b3)

/-- Spec-shaped TypeA section: section-title blocks, the aggregated Table 1
(one data row per record, in record order), one Table 2 group per record in
record order, then the aggregated Table 3 counting the records. -/
def specCategoryA (tpls : Templates) (data : JValue) : Except String (List Block) := do
  let template ← templateLookup tpls "type_a"
  let items ← data.iter
  let rows ← items.mapM typeAItemRow
  let b1 ← add_tableBlocks template.table1_headers rows (some template.table1_title)
  let b2s ← items.mapM (typeARecordBlocks template)
  let b3 ← add_tableBlocks template.table3_headers
    [[JValue.s "Total Devices", JValue.i items.length]] (some template.table3_title)
  pure (add_title [] template.title ++ b1 ++ b2s.flatten ++ b3)

/-- Spec-shaped TypeB section: section-title blocks, then per record (in
record order) its three tables in table order. -/
def specCategoryB (tpls : Templates) (data : JValue) : Except String (List Block) := do
  let template ← templateLookup tpls "type_b"
  let items ← data.iter
  let recs ← items.mapM (typeBRecordBlocks template)
  pure (add_title [] template.title ++ recs.flatten)

/-- Spec-shaped TypeC section: section-title blocks, then per record (in
record order) its three tables in table order. -/
def specCategoryC (tpls : Templates) (data : JValue) : Except String (List Block) := do
  let template ← templateLookup tpls "type_c"
  let items ← data.iter
  let recs ← items.mapM (typeCRecordBlocks template)
  pure (add_title [] template.title ++ recs.flatten)

/-- Spec-shaped TypeD section: section-title blocks, then per record (in
record order) its three tables in table order. -/
def specCategoryD (tpls : Templates) (data : JValue) : Except String (List Block) := do
  let template ← templateLookup tpls "type_d"
  let items ← data.iter
  let recs ← items.mapM (typeDRecordBlocks template)
  pure (add_title [] template.title ++ recs.flatten)

/-- Spec-shaped TypeE section: section-title blocks, then per record (in
record order) its three tables in table order. -/
def specCategoryE (tpls : Templates) (data : JValue) : Except String (List Block) := do
  let template ← templateLookup tpls "type_e"
  let items ← data.iter
  let recs ← items.mapM (typeERecordBlocks template)
  pure (add_title [] template.title ++ recs.flatten)

/-- The blocks contributed by one category: none when the category key is
absent from `objects`, the spec-shaped section otherwise. -/
def categoryBlocks (tpls : Templates) (objects : JValue) (name : String)
    (render : Templates → JValue → Except String (List Block)) :
    Except String (List Block) := do
  let cond ← pyIn name objects
  if cond then do
    let data ← objects.getKey name
    render tpls data
  else pure []

/-- The ordering invariant of the specification as a function: category blocks in
the fixed order TypeA, TypeB, TypeC, TypeD, TypeE (present categories only),
concatenated. -/
def specOrderedBlocks (tpls : Templates) (json_data : List (String × JValue)) :
    Except String (List Block) := do
  let objects := (json_data.lookup "objects").getD (JValue.obj [])
  let a ← categoryBlocks tpls objects "TypeA" specCategoryA
  let b ← categoryBlocks tpls objects "TypeB" specCategoryB
  let c ← categoryBlocks tpls objects "TypeC" specCategoryC
  let d ← categoryBlocks tpls objects "TypeD" specCategoryD
  let e ← categoryBlocks tpls objects "TypeE" specCategoryE
  pure (a ++ b ++ c ++ d ++ e)

/-! ## Category tags, required fields, observation helpers -/

/-- Tag for the five fixed record categories. -/
inductive CatTag where
  | A | B | C | D | E
  deriving DecidableEq, Repr

/-- The key of a category in the `objects` mapping of the input. -/
def catName : CatTag → String
  | .A => "TypeA" | .B => "TypeB" | .C => "TypeC" | .D => "TypeD" | .E => "TypeE"

/-- The key of a category in the template mapping. -/
def tplKey : CatTag → String
  | .A => "type_a" | .B => "type_b" | .C => "type_c" | .D => "type_d" | .E => "type_e"

/-- The identifying field of a record of each category. -/
def idFieldName : CatTag → String
  | .A => "id" | .B => "component_id" | .C => "transaction_id"
  | .D => "test_id" | .E => "employee_id"

/-- Boolean success test for an `Except` value. -/
def isOkB {α : Type} : Except String α → Bool
  | .ok _ => true
  | .error _ => false

/-- All field lookups (and shape requirements) a record of the given
category must satisfy for its processor to pass over it without raising. -/
def requiredOkB : CatTag → JValue → Bool
  | .A, item =>
    isOkB (item.getKey "id") && isOkB (item.getKey "name") &&
    isOkB (item.getKey "description") &&
    (match item.getKey "parameters" with
     | .ok p => isOkB (p.getKey "status") && isOkB (p.getKey "priority") &&
                isOkB (p.getKey "last_updated")
     | .error _ => false)
  | .B, item =>
    isOkB (item.getKey "component_id") && isOkB (item.getKey "installation_date") &&
    (match item.getKey "specs" with
     | .ok sp => isOkB sp.itemsOf && isOkB (sp.getKey "manufacturer")
     | .error _ => false)
  | .C, item =>
    isOkB (item.getKey "transaction_id") && isOkB (item.getKey "amount") &&
    isOkB (item.getKey "currency") &&
    (match item.getKey "parties" with
     | .ok ps => isOkB ps.iter
     | .error _ => false) &&
    isOkB (item.getKey "approved")
  | .D, item =>
    isOkB (item.getKey "test_id") &&
    (match item.getKey "environment" with
     | .ok env => isOkB env.asStr
     | .error _ => false) &&
    (match item.getKey "metrics" with
     | .ok m => isOkB m.itemsOf
     | .error _ => false)
  | .E, item =>
    isOkB (item.getKey "employee_id") && isOkB (item.getKey "department") &&
    isOkB (item.getKey "role") &&
    (match item.getKey "projects" with
     | .ok ps => isOkB ps.iter
     | .error _ => false)

/-- The cell texts of one block (empty for non-tables). -/
def blockCellTexts : Block → List String
  | .table rs => (rs.map (fun r => r.map Cell.text)).flatten
  | _ => []

/-- All table cell texts of a rendered document, in order. -/
def cellTexts (doc : List Block) : List String :=
  (doc.map blockCellTexts).flatten

/-- Does the document contain a table whose data rows (everything after the
header row) are exactly the given texts? -/
def containsTableWithRows (doc : List Block) (rows : List (List String)) : Bool :=
  doc.any (fun blk => match blk with
    | .table (_ :: drs) => drs.map (fun r => r.map Cell.text) == rows
    | _ => false)

/-- Does the document contain a table whose header row renders the given
header texts? -/
def containsTableWithHeader (doc : List Block) (headers : List String) : Bool :=
  doc.any (fun blk => match blk with
    | .table (hd :: _) => hd == headerCells headers
    | _ => false)

/-! ## Concrete fixtures (used by scenario claims and witnesses) -/

/-- A concrete template mapping of the shape the YAML template file of the
repository supplies (one entry per category, three header lists and titles). -/
def demoTypeA : TemplateEntry :=
  TemplateEntry.mk "Device Report" ["ID", "Name", "Description"] "Device Information"
    ["Status", "Priority", "Last Updated"] "Parameters"
    ["Info", "Value"] "Additional Info"

/-- Demo template entry for TypeB. -/
def demoTypeB : TemplateEntry :=
  TemplateEntry.mk "Component Report" ["Component ID", "Installation Date"] "Component Details"
    ["Spec", "Value"] "Technical Specs"
    ["Maker", "Name"] "Manufacturer Info"

/-- Demo template entry for TypeC. -/
def demoTypeC : TemplateEntry :=
  TemplateEntry.mk "Transaction Report" ["Transaction ID", "Amount", "Currency"]
    "Transaction Overview"
    ["Index", "Party"] "Party Information"
    ["Field", "State"] "Status"

/-- Demo template entry for TypeD. -/
def demoTypeD : TemplateEntry :=
  TemplateEntry.mk "Test Report" ["Test ID", "Environment"] "Test Information"
    ["Metric", "Value"] "Metrics"
    ["Detail", "Value"] "Additional Details"

/-- Demo template entry for TypeE. -/
def demoTypeE : TemplateEntry :=
  TemplateEntry.mk "Employee Report" ["Employee ID", "Department", "Role"] "Employee Details"
    ["Index", "Project"] "Project Information"
    ["Summary", "Count"] "Additional Information"

/-- The demo template mapping with all five categories present. -/
def demoTemplates : Templates :=
  [("type_a", demoTypeA), ("type_b", demoTypeB), ("type_c", demoTypeC),
   ("type_d", demoTypeD), ("type_e", demoTypeE)]

/-- The TypeC record of the specification scenario. -/
def demoItemC : JValue := JValue.obj
  [("transaction_id", JValue.s "T1"), ("amount", JValue.i 100),
   ("currency", JValue.s "USD"),
   ("parties", JValue.arr [JValue.s "Alice", JValue.s "Bob"]),
   ("approved", JValue.b true)]

/-- A TypeC record lacking all required fields except `amount`. -/
def demoBadC : JValue := JValue.obj [("amount", JValue.i 1)]

/-- An input whose only TypeC record lacks required fields. -/
def inputBadC : List (String × JValue) :=
  [("objects", JValue.obj [("TypeC", JValue.arr [demoBadC])])]

/-- The TypeC scenario input of the specification. -/
def inputC3 : List (String × JValue) :=
  [("objects", JValue.obj [("TypeC", JValue.arr [demoItemC])])]

/-- The document generated for the TypeC scenario input. -/
def outC3doc : List Block :=
  (generate_document demoTemplates inputC3).toOption.getD []

/-- The TypeC scenario input with `approved` set to `false`. -/
def inputC3f : List (String × JValue) :=
  [("objects", JValue.obj [("TypeC", JValue.arr [JValue.obj
    [("transaction_id", JValue.s "T1"), ("amount", JValue.i 100),
     ("currency", JValue.s "USD"),
     ("parties", JValue.arr [JValue.s "Alice", JValue.s "Bob"]),
     ("approved", JValue.b false)]])])]

/-- A concrete complete TypeA record. -/
def demoItemA : JValue := JValue.obj
  [("id", JValue.s "D1"), ("name", JValue.s "Sensor"), ("description", JValue.s "Temp"),
   ("parameters", JValue.obj
     [("status", JValue.s "active"), ("priority", JValue.i 1),
      ("last_updated", JValue.s "2024-01-01")])]

/-- Is a key one of the five category names `generate_document` inspects? -/
def knownCat (k : String) : Bool :=
  k == "TypeA" || k == "TypeB" || k == "TypeC" || k == "TypeD" || k == "TypeE"

/-- The shape claimed for `add_table` output by the specification sentence
"if and only if a title is given, one paragraph containing the title in
bold" (note: a given-but-empty title is claimed to yield a paragraph). -/
def addTableClaimedShape (doc : List Block) (headers : List String)
    (rows : List (List JValue)) (title : Option String) : Prop :=
  ∀ res, add_table doc headers rows title = Except.ok res →
    res = doc ++ (match title with
                  | some t => [Block.para [(t, true)]]
                  | none => []) ++
      [Block.table (headerCells headers ::
        rows.map (fun r => padRow headers.length (r.map pyStr))), Block.para []]

/-- The blocks produced by `process_type_a` on an empty record list under
the demo templates (computed; note: no Table 2 block at all). -/
def emptyTypeAOutput : List Block :=
  [Block.heading "Device Report", Block.para [],
   Block.para [("Device Information", true)],
   Block.table [[Cell.mk "ID" true, Cell.mk "Name" true, Cell.mk "Description" true]],
   Block.para [],
   Block.para [("Additional Info", true)],
   Block.table [[Cell.mk "Info" true, Cell.mk "Value" true],
     [Cell.mk "Total Devices" false, Cell.mk "0" false]],
   Block.para []]

/-- A concrete `objects` mapping with no `TypeC` key. -/
def demoNoCObjects : List (String × JValue) :=
  [("TypeA", JValue.arr [demoItemA])]

/-- The spec-shaped section renderer of each category. -/
def specCategoryOf : CatTag → Templates → JValue → Except String (List Block)
  | .A => specCategoryA
  | .B => specCategoryB
  | .C => specCategoryC
  | .D => specCategoryD
  | .E => specCategoryE

/-- The document produced when the section of the given category is dropped
entirely and the four remaining categories are rendered unchanged, in their
fixed order. -/
def withoutCategory : CatTag → Templates → JValue → Except String (List Block)
  | .A, tpls, objects => do
    let b ← categoryBlocks tpls objects "TypeB" specCategoryB
    let c ← categoryBlocks tpls objects "TypeC" specCategoryC
    let d ← categoryBlocks tpls objects "TypeD" specCategoryD
    let e ← categoryBlocks tpls objects "TypeE" specCategoryE
    pure (b ++ c ++ d ++ e)
  | .B, tpls, objects => do
    let a ← categoryBlocks tpls objects "TypeA" specCategoryA
    let c ← categoryBlocks tpls objects "TypeC" specCategoryC
    let d ← categoryBlocks tpls objects "TypeD" specCategoryD
    let e ← categoryBlocks tpls objects "TypeE" specCategoryE
    pure (a ++ c ++ d ++ e)
  | .C, tpls, objects => do
    let a ← categoryBlocks tpls objects "TypeA" specCategoryA
    let b ← categoryBlocks tpls objects "TypeB" specCategoryB
    let d ← categoryBlocks tpls objects "TypeD" specCategoryD
    let e ← categoryBlocks tpls objects "TypeE" specCategoryE
    pure (a ++ b ++ d ++ e)
  | .D, tpls, objects => do
    let a ← categoryBlocks tpls objects "TypeA" specCategoryA
    let b ← categoryBlocks tpls objects "TypeB" specCategoryB
    let c ← categoryBlocks tpls objects "TypeC" specCategoryC
    let e ← categoryBlocks tpls objects "TypeE" specCategoryE
    pure (a ++ b ++ c ++ e)
  | .E, tpls, objects => do
    let a ← categoryBlocks tpls objects "TypeA" specCategoryA
    let b ← categoryBlocks tpls objects "TypeB" specCategoryB
    let c ← categoryBlocks tpls objects "TypeC" specCategoryC
    let d ← categoryBlocks tpls objects "TypeD" specCategoryD
    pure (a ++ b ++ c ++ d)

/-! ## Basic lemmas about the `Except` plumbing -/

@[simp] theorem exbind_ok {α β : Type} (a : α) (f : α → Except String β) :
    (Except.ok a >>= f) = f a := rfl

@[simp] theorem exbind_err {α β : Type} (e : String) (f : α → Except String β) :
    ((Except.error e : Except String α) >>= f) = Except.error e := rfl

@[simp] theorem exmap_ok {α β : Type} (g : α → β) (a : α) :
    Except.map g (Except.ok a : Except String α) = Except.ok (g a) := rfl

@[simp] theorem exmap_err {α β : Type} (g : α → β) (e : String) :
    Except.map g (Except.error e : Except String α) = Except.error e := rfl

@[simp] theorem expure_eq {α : Type} (a : α) :
    (pure a : Except String α) = Except.ok a := rfl

theorem exmapM_nil {α β : Type} (f : α → Except String β) :
    ([] : List α).mapM f = Except.ok [] := rfl

theorem exfoldlM_nil {α β : Type} (f : β → α → Except String β) (b : β) :
    ([] : List α).foldlM f b = Except.ok b := rfl

/-- Lemma: `add_table` appends blocks that do not depend on the existing document. -/
theorem add_table_eq (doc : List Block) (headers : List String)
    (rows : List (List JValue)) (title : Option String) :
    add_table doc headers rows title =
      Except.map (fun bs => doc ++ bs) (add_tableBlocks headers rows title) := by
  unfold add_table add_tableBlocks
  cases hm : rows.mapM (fillCells headers.length) with
  | error e =>
    cases title with
    | none => simp [hm, titleBlocksOf]
    | some t => by_cases ht : t = "" <;> simp [hm, titleBlocksOf, ht]
  | ok dataRows =>
    cases title with
    | none => simp [hm, titleBlocksOf]
    | some t => by_cases ht : t = "" <;> simp [hm, titleBlocksOf, ht]

theorem exmap_eq {α β : Type} (g : α → β) (x : Except String α) :
    Except.map g x = x >>= fun a => Except.ok (g a) := by cases x <;> rfl

theorem exbind_assoc {α β γ : Type} (x : Except String α) (f : α → Except String β)
    (g : β → Except String γ) : (x >>= f) >>= g = x >>= fun a => f a >>= g := by
  cases x <;> rfl

/-- The TypeA loop body appends blocks independent of the current document. -/
theorem typeAStep_eq (tpl : TemplateEntry) (doc : List Block) (item : JValue) :
    typeAStep tpl doc item =
      Except.map (fun bs => doc ++ bs) (typeARecordBlocks tpl item) := by
  unfold typeAStep typeARecordBlocks
  simp only [add_table_eq, exmap_eq, exbind_assoc, exbind_ok, expure_eq, List.append_assoc]

/-- The TypeB loop body appends blocks independent of the current document. -/
theorem typeBStep_eq (tpl : TemplateEntry) (doc : List Block) (item : JValue) :
    typeBStep tpl doc item =
      Except.map (fun bs => doc ++ bs) (typeBRecordBlocks tpl item) := by
  unfold typeBStep typeBRecordBlocks
  simp only [add_table_eq, exmap_eq, exbind_assoc, exbind_ok, expure_eq, List.append_assoc]

/-- The TypeC loop body appends blocks independent of the current document. -/
theorem typeCStep_eq (tpl : TemplateEntry) (doc : List Block) (item : JValue) :
    typeCStep tpl doc item =
      Except.map (fun bs => doc ++ bs) (typeCRecordBlocks tpl item) := by
  unfold typeCStep typeCRecordBlocks
  simp only [add_table_eq, exmap_eq, exbind_assoc, exbind_ok, expure_eq, List.append_assoc]

/-- The TypeD loop body appends blocks independent of the current document. -/
theorem typeDStep_eq (tpl : TemplateEntry) (doc : List Block) (item : JValue) :
    typeDStep tpl doc item =
      Except.map (fun bs => doc ++ bs) (typeDRecordBlocks tpl item) := by
  unfold typeDStep typeDRecordBlocks
  simp only [add_table_eq, exmap_eq, exbind_assoc, exbind_ok, expure_eq, List.append_assoc]

/-- The TypeE loop body appends blocks independent of the current document. -/
theorem typeEStep_eq (tpl : TemplateEntry) (doc : List Block) (item : JValue) :
    typeEStep tpl doc item =
      Except.map (fun bs => doc ++ bs) (typeERecordBlocks tpl item) := by
  unfold typeEStep typeERecordBlocks
  simp only [add_table_eq, exmap_eq, exbind_assoc, exbind_ok, expure_eq, List.append_assoc]

/-- A fold that appends document-independent block groups equals mapping the
group renderer over the records and flattening, in input order. -/
theorem foldlM_frame {α : Type} (f : α → Except String (List Block))
    (step : List Block → α → Except String (List Block))
    (hstep : ∀ d a, step d a = Except.map (fun bs => d ++ bs) (f a)) :
    ∀ (xs : List α) (d : List Block),
      xs.foldlM step d = Except.map (fun ls => d ++ ls.flatten) (xs.mapM f) := by
  intro xs
  induction xs with
  | nil =>
    intro d
    rw [List.mapM_nil]
    simp [exfoldlM_nil, exmap_eq]
  | cons x xs ih =>
    intro d
    rw [List.foldlM_cons, List.mapM_cons, hstep]
    cases h : f x with
    | error e => simp [exmap_eq, h]
    | ok bs =>
      simp only [exmap_eq, h, exbind_ok, exbind_assoc, ih, expure_eq,
        List.flatten_cons, List.append_assoc]

/-- Lemma: `process_type_a` refines the spec-shaped TypeA section. -/
theorem process_type_a_eq (tpls : Templates) (doc : List Block) (data : JValue) :
    process_type_a tpls doc data =
      Except.map (fun bs => doc ++ bs) (specCategoryA tpls data) := by
  unfold process_type_a specCategoryA
  simp only [foldlM_frame (typeARecordBlocks _) (typeAStep _) (typeAStep_eq _),
    add_table_eq, add_title, exmap_eq, exbind_assoc, exbind_ok, expure_eq,
    List.append_assoc, List.append_nil, List.nil_append, List.cons_append]

/-- Lemma: `process_type_b` refines the spec-shaped TypeB section. -/
theorem process_type_b_eq (tpls : Templates) (doc : List Block) (data : JValue) :
    process_type_b tpls doc data =
      Except.map (fun bs => doc ++ bs) (specCategoryB tpls data) := by
  unfold process_type_b specCategoryB
  simp only [foldlM_frame (typeBRecordBlocks _) (typeBStep _) (typeBStep_eq _),
    add_title, exmap_eq, exbind_assoc, exbind_ok, expure_eq, List.append_assoc,
    List.append_nil, List.nil_append, List.cons_append]

/-- Lemma: `process_type_c` refines the spec-shaped TypeC section. -/
theorem process_type_c_eq (tpls : Templates) (doc : List Block) (data : JValue) :
    process_type_c tpls doc data =
      Except.map (fun bs => doc ++ bs) (specCategoryC tpls data) := by
  unfold process_type_c specCategoryC
  simp only [foldlM_frame (typeCRecordBlocks _) (typeCStep _) (typeCStep_eq _),
    add_title, exmap_eq, exbind_assoc, exbind_ok, expure_eq, List.append_assoc,
    List.append_nil, List.nil_append, List.cons_append]

/-- Lemma: `process_type_d` refines the spec-shaped TypeD section. -/
theorem process_type_d_eq (tpls : Templates) (doc : List Block) (data : JValue) :
    process_type_d tpls doc data =
      Except.map (fun bs => doc ++ bs) (specCategoryD tpls data) := by
  unfold process_type_d specCategoryD
  simp only [foldlM_frame (typeDRecordBlocks _) (typeDStep _) (typeDStep_eq _),
    add_title, exmap_eq, exbind_assoc, exbind_ok, expure_eq, List.append_assoc,
    List.append_nil, List.nil_append, List.cons_append]

/-- Lemma: `process_type_e` refines the spec-shaped TypeE section. -/
theorem process_type_e_eq (tpls : Templates) (doc : List Block) (data : JValue) :
    process_type_e tpls doc data =
      Except.map (fun bs => doc ++ bs) (specCategoryE tpls data) := by
  unfold process_type_e specCategoryE
  simp only [foldlM_frame (typeERecordBlocks _) (typeEStep _) (typeEStep_eq _),
    add_title, exmap_eq, exbind_assoc, exbind_ok, expure_eq, List.append_assoc,
    List.append_nil, List.nil_append, List.cons_append]

/-- One `generate_document` category section appends exactly the spec-shaped
blocks of that category. -/
theorem catSection_eq (tpls : Templates) (objects : JValue) (doc : List Block) (name : String)
    (render : Templates → JValue → Except String (List Block))
    (processX : Templates → List Block → JValue → Except String (List Block))
    (heq : ∀ d data, processX tpls d data = Except.map (fun bs => d ++ bs) (render tpls data)) :
    catSection tpls objects doc name processX =
      Except.map (fun bs => doc ++ bs) (categoryBlocks tpls objects name render) := by
  unfold catSection categoryBlocks
  cases hc : pyIn name objects with
  | error e => simp [hc, exmap_eq]
  | ok cond =>
    cases cond with
    | false => simp [hc, exmap_eq]
    | true =>
      simp only [hc, exbind_ok, if_true]
      cases hk : objects.getKey name with
      | error e => simp [hk, exmap_eq]
      | ok data => simp [hk, heq, exmap_eq]

/-- The source-order `generate_document` computes exactly the spec-shaped
ordered concatenation of category blocks. -/
theorem generate_document_eq_spec (tpls : Templates) (json_data : List (String × JValue)) :
    generate_document tpls json_data = specOrderedBlocks tpls json_data := by
  unfold generate_document specOrderedBlocks
  simp only [
    catSection_eq tpls _ _ "TypeA" specCategoryA process_type_a (process_type_a_eq tpls),
    catSection_eq tpls _ _ "TypeB" specCategoryB process_type_b (process_type_b_eq tpls),
    catSection_eq tpls _ _ "TypeC" specCategoryC process_type_c (process_type_c_eq tpls),
    catSection_eq tpls _ _ "TypeD" specCategoryD process_type_d (process_type_d_eq tpls),
    catSection_eq tpls _ _ "TypeE" specCategoryE process_type_e (process_type_e_eq tpls),
    exmap_eq, exbind_assoc, exbind_ok, expure_eq, List.append_assoc,
    List.append_nil, List.nil_append]

/-! ## Inversion lemmas for `mapM` over `Except` and for table filling -/

theorem exmapM_cons_inv {α β : Type} (f : α → Except String β) (x : α) (xs : List α)
    (ys : List β) (h : (x :: xs).mapM f = Except.ok ys) :
    ∃ y ys2, f x = Except.ok y ∧ xs.mapM f = Except.ok ys2 ∧ ys = y :: ys2 := by
  rw [List.mapM_cons] at h
  cases h1 : f x with
  | error e => rw [h1] at h; simp at h
  | ok y =>
    rw [h1] at h
    simp only [exbind_ok] at h
    cases h2 : xs.mapM f with
    | error e => rw [h2] at h; simp at h
    | ok ys2 =>
      rw [h2] at h
      simp only [exbind_ok, expure_eq, Except.ok.injEq] at h
      exact ⟨y, ys2, rfl, rfl, h.symm⟩

theorem exmapM_ok_length {α β : Type} (f : α → Except String β) :
    ∀ (xs : List α) (ys : List β), xs.mapM f = Except.ok ys → ys.length = xs.length := by
  intro xs
  induction xs with
  | nil => intro ys h; rw [List.mapM_nil] at h; simp only [expure_eq, Except.ok.injEq] at h
           simp [h.symm]
  | cons x xs ih =>
    intro ys h
    obtain ⟨y, ys2, _, h2, hys⟩ := exmapM_cons_inv f x xs ys h
    subst hys
    simp [ih ys2 h2]

theorem exmapM_ok_mem {α β : Type} (f : α → Except String β) :
    ∀ (xs : List α) (ys : List β), xs.mapM f = Except.ok ys →
      ∀ x, x ∈ xs → ∃ y, f x = Except.ok y ∧ y ∈ ys := by
  intro xs
  induction xs with
  | nil => intro ys _ x hx; cases hx
  | cons x0 xs ih =>
    intro ys h x hx
    obtain ⟨y, ys2, h1, h2, hys⟩ := exmapM_cons_inv f x0 xs ys h
    subst hys
    cases List.mem_cons.mp hx with
    | inl hx0 => exact ⟨y, hx0 ▸ h1, List.mem_cons_self y ys2⟩
    | inr hxs =>
      obtain ⟨y2, hy2, hmem⟩ := ih ys2 h2 x hxs
      exact ⟨y2, hy2, List.mem_cons_of_mem y hmem⟩

theorem exmapM_map_of_ok {α β : Type} (f : α → Except String β) (g : α → β) :
    ∀ (xs : List α), (∀ x ∈ xs, f x = Except.ok (g x)) →
      xs.mapM f = Except.ok (xs.map g) := by
  intro xs
  induction xs with
  | nil => intro _; rfl
  | cons x xs ih =>
    intro h
    rw [List.mapM_cons, h x (List.mem_cons_self x xs),
      ih (fun a ha => h a (List.mem_cons_of_mem x ha))]
    rfl

/-- All data rows fit into the header width: every cell write is in bounds
and the rows are rendered padded. -/
theorem mapM_fillCells_ok_of_le (n : Nat) (rows : List (List JValue))
    (h : ∀ r ∈ rows, r.length ≤ n) :
    rows.mapM (fillCells n) =
      Except.ok (rows.map (fun r => padRow n (r.map pyStr))) := by
  apply exmapM_map_of_ok
  intro r hr
  unfold fillCells
  rw [if_pos (h r hr)]

/-- Inversion: a successful fill means every row fitted and the result is
the padded rendering. -/
theorem mapM_fillCells_ok_inv (n : Nat) :
    ∀ (rows : List (List JValue)) (cs : List (List Cell)),
      rows.mapM (fillCells n) = Except.ok cs →
      (∀ r ∈ rows, r.length ≤ n) ∧
      cs = rows.map (fun r => padRow n (r.map pyStr)) := by
  intro rows
  induction rows with
  | nil =>
    intro cs h
    rw [List.mapM_nil] at h
    simp only [expure_eq, Except.ok.injEq] at h
    exact ⟨fun r hr => absurd hr (List.not_mem_nil r), by simp [h.symm]⟩
  | cons r rows ih =>
    intro cs h
    obtain ⟨c, cs2, h1, h2, hcs⟩ := exmapM_cons_inv (fillCells n) r rows cs h
    subst hcs
    unfold fillCells at h1
    by_cases hl : r.length ≤ n
    · rw [if_pos hl] at h1
      simp only [Except.ok.injEq] at h1
      obtain ⟨hall, hcs2⟩ := ih cs2 h2
      refine ⟨?_, ?_⟩
      · intro r2 hr2
        cases List.mem_cons.mp hr2 with
        | inl he => exact he ▸ hl
        | inr hm => exact hall r2 hm
      · simp [h1.symm, hcs2]
    · rw [if_neg hl] at h1
      cases h1

/-- A data row strictly longer than the header row makes the fill raise. -/
theorem mapM_fillCells_error_of_long (n : Nat) :
    ∀ (rows : List (List JValue)), (∃ r, r ∈ rows ∧ n < r.length) →
      ∃ e, rows.mapM (fillCells n) = Except.error e := by
  intro rows
  induction rows with
  | nil => intro ⟨r, hr, _⟩; cases hr
  | cons r0 rows ih =>
    intro ⟨r, hr, hlong⟩
    rw [List.mapM_cons]
    cases h0 : fillCells n r0 with
    | error e => exact ⟨e, by simp [h0]⟩
    | ok c0 =>
      have hr0 : r0.length ≤ n := by
        unfold fillCells at h0
        by_cases hl : r0.length ≤ n
        · exact hl
        · rw [if_neg hl] at h0; cases h0
      have hmem : r ∈ rows := by
        cases List.mem_cons.mp hr with
        | inl he => subst he; exact absurd hr0 (Nat.not_le_of_lt hlong)
        | inr hm => exact hm
      obtain ⟨e, he⟩ := ih ⟨r, hmem, hlong⟩
      refine ⟨e, ?_⟩
      simp only [exbind_ok]
      rw [he]
      rfl

/-- A titled `add_tableBlocks` call whose rows all fit renders the titled
table group. -/
theorem add_tableBlocks_ok (headers : List String) (rows : List (List JValue))
    (t : String) (h : ∀ r ∈ rows, r.length ≤ headers.length) :
    add_tableBlocks headers rows (some t) = Except.ok (titledTable headers rows t) := by
  unfold add_tableBlocks titledTable
  rw [mapM_fillCells_ok_of_le headers.length rows h]
  rfl

/-! ## Lookup and presence lemmas -/

theorem lookup_filter_known (fs : List (String × JValue)) (name : String)
    (hname : knownCat name = true) :
    (fs.filter (fun p => knownCat p.1)).lookup name = fs.lookup name := by
  induction fs with
  | nil => rfl
  | cons p fs ih =>
    obtain ⟨k, v⟩ := p
    by_cases hk : knownCat k = true
    · cases hb : name == k <;>
        simp [List.filter_cons, hk, List.lookup, hb, ih]
    · have hne : (name == k) = false := by
        cases hb : name == k
        · rfl
        · have hkn : name = k := by simpa using hb
          rw [hkn] at hname
          exact absurd hname hk
      simp [List.filter_cons, hk, List.lookup, hne, ih]

theorem any_filter_known (fs : List (String × JValue)) (name : String)
    (hname : knownCat name = true) :
    (fs.filter (fun p => knownCat p.1)).any (fun p => p.1 == name) =
      fs.any (fun p => p.1 == name) := by
  induction fs with
  | nil => rfl
  | cons p fs ih =>
    obtain ⟨k, v⟩ := p
    by_cases hk : knownCat k = true
    · simp [List.filter_cons, hk, List.any_cons, ih]
    · have hne : (k == name) = false := by
        cases hb : k == name
        · rfl
        · have hkn : k = name := by simpa using hb
          rw [hkn] at hk
          exact absurd hname hk
      simp [List.filter_cons, hk, List.any_cons, hne, ih]

/-- Unfolding of `specOrderedBlocks` with the `objects` binding inlined. -/
theorem specOrderedBlocks_unfold (tpls : Templates) (jd : List (String × JValue)) :
    specOrderedBlocks tpls jd = (do
      let a ← categoryBlocks tpls ((jd.lookup "objects").getD (JValue.obj [])) "TypeA" specCategoryA
      let b ← categoryBlocks tpls ((jd.lookup "objects").getD (JValue.obj [])) "TypeB" specCategoryB
      let c ← categoryBlocks tpls ((jd.lookup "objects").getD (JValue.obj [])) "TypeC" specCategoryC
      let d ← categoryBlocks tpls ((jd.lookup "objects").getD (JValue.obj [])) "TypeD" specCategoryD
      let e ← categoryBlocks tpls ((jd.lookup "objects").getD (JValue.obj [])) "TypeE" specCategoryE
      pure (a ++ b ++ c ++ d ++ e)) := rfl

/-- Unfolding of `generate_document` with the `objects` binding inlined. -/
theorem generate_document_unfold (tpls : Templates) (jd : List (String × JValue)) :
    generate_document tpls jd = (do
      let doc ← catSection tpls ((jd.lookup "objects").getD (JValue.obj [])) [] "TypeA" process_type_a
      let doc ← catSection tpls ((jd.lookup "objects").getD (JValue.obj [])) doc "TypeB" process_type_b
      let doc ← catSection tpls ((jd.lookup "objects").getD (JValue.obj [])) doc "TypeC" process_type_c
      let doc ← catSection tpls ((jd.lookup "objects").getD (JValue.obj [])) doc "TypeD" process_type_d
      let doc ← catSection tpls ((jd.lookup "objects").getD (JValue.obj [])) doc "TypeE" process_type_e
      pure doc) := rfl

/-- Restricting `objects` to the five known keys changes neither presence
tests nor lookups of a known key. -/
theorem categoryBlocks_filter_known (tpls : Templates) (fs : List (String × JValue))
    (name : String) (render : Templates → JValue → Except String (List Block))
    (hname : knownCat name = true) :
    categoryBlocks tpls (JValue.obj (fs.filter (fun p => knownCat p.1))) name render =
      categoryBlocks tpls (JValue.obj fs) name render := by
  unfold categoryBlocks
  have h1 : pyIn name (JValue.obj (fs.filter (fun p => knownCat p.1))) =
      pyIn name (JValue.obj fs) := by
    simp only [pyIn, any_filter_known fs name hname]
  have h2 : JValue.getKey (JValue.obj (fs.filter (fun p => knownCat p.1))) name =
      JValue.getKey (JValue.obj fs) name := by
    simp only [JValue.getKey, lookup_filter_known fs name hname]
  rw [h1, h2]

/-- A section over an empty `objects` dict appends nothing. -/
theorem catSection_empty (tpls : Templates) (doc : List Block) (name : String)
    (processX : Templates → List Block → JValue → Except String (List Block)) :
    catSection tpls (JValue.obj []) doc name processX = Except.ok doc := by
  unfold catSection
  simp [pyIn]

/-! ## Inversion lemmas for the record-row extractors -/

theorem exmapM_ok_mem_rev {α β : Type} (f : α → Except String β) :
    ∀ (xs : List α) (ys : List β), xs.mapM f = Except.ok ys →
      ∀ y, y ∈ ys → ∃ x, x ∈ xs ∧ f x = Except.ok y := by
  intro xs
  induction xs with
  | nil =>
    intro ys h y hy
    rw [List.mapM_nil] at h
    simp only [expure_eq, Except.ok.injEq] at h
    rw [h.symm] at hy
    cases hy
  | cons x0 xs ih =>
    intro ys h y hy
    obtain ⟨y0, ys2, h1, h2, hys⟩ := exmapM_cons_inv f x0 xs ys h
    subst hys
    cases List.mem_cons.mp hy with
    | inl he => exact ⟨x0, List.mem_cons_self x0 xs, he ▸ h1⟩
    | inr hm =>
      obtain ⟨x, hx, hfx⟩ := ih ys2 h2 y hm
      exact ⟨x, List.mem_cons_of_mem x0 hx, hfx⟩

theorem typeAItemRow_len (item : JValue) (row : List JValue)
    (h : typeAItemRow item = Except.ok row) : row.length = 3 := by
  unfold typeAItemRow at h
  cases h1 : item.getKey "id" <;> rw [h1] at h
  · simp at h
  · simp only [exbind_ok] at h
    cases h2 : item.getKey "name" <;> rw [h2] at h
    · simp at h
    · simp only [exbind_ok] at h
      cases h3 : item.getKey "description" <;> rw [h3] at h
      · simp at h
      · simp only [exbind_ok, expure_eq, Except.ok.injEq] at h
        simp [h.symm]

theorem typeAParamRow_len (item : JValue) (row : List JValue)
    (h : typeAParamRow item = Except.ok row) : row.length = 3 := by
  unfold typeAParamRow at h
  cases h0 : item.getKey "parameters" <;> rw [h0] at h
  · simp at h
  · simp only [exbind_ok] at h
    rename_i params
    cases h1 : params.getKey "status" <;> rw [h1] at h
    · simp at h
    · simp only [exbind_ok] at h
      cases h2 : params.getKey "priority" <;> rw [h2] at h
      · simp at h
      · simp only [exbind_ok] at h
        cases h3 : params.getKey "last_updated" <;> rw [h3] at h
        · simp at h
        · simp only [exbind_ok, expure_eq, Except.ok.injEq] at h
          simp [h.symm]

/-- Mapping the TypeA per-record loop over records with extracted parameter
rows yields one Table-2 group per record, in order. -/
theorem mapM_typeARecordBlocks (tpl : TemplateEntry) (h2 : 3 ≤ tpl.table2_headers.length) :
    ∀ (items : List JValue) (prms : List (List JValue)),
      items.mapM typeAParamRow = Except.ok prms →
      items.mapM (typeARecordBlocks tpl) =
        Except.ok (prms.map (fun pr => titledTable tpl.table2_headers [pr] tpl.table2_title)) := by
  intro items
  induction items with
  | nil =>
    intro prms h
    rw [List.mapM_nil] at h
    simp only [expure_eq, Except.ok.injEq] at h
    rw [List.mapM_nil, h.symm]
    rfl
  | cons x xs ih =>
    intro prms h
    obtain ⟨pr, prms2, h1, hrest, hprms⟩ := exmapM_cons_inv typeAParamRow x xs prms h
    subst hprms
    rw [List.mapM_cons]
    have hx : typeARecordBlocks tpl x =
        Except.ok (titledTable tpl.table2_headers [pr] tpl.table2_title) := by
      unfold typeARecordBlocks
      rw [h1]
      simp only [exbind_ok]
      exact add_tableBlocks_ok tpl.table2_headers [pr] tpl.table2_title
        (by
          intro r hr
          simp only [List.mem_singleton] at hr
          rw [hr, typeAParamRow_len x pr h1]
          exact h2)
    rw [hx, ih prms2 hrest]
    simp

theorem lookup_some_any (fs : List (String × JValue)) (name : String) (v : JValue)
    (h : fs.lookup name = some v) : fs.any (fun p => p.1 == name) = true := by
  induction fs with
  | nil => cases h
  | cons p fs ih =>
    obtain ⟨k, w⟩ := p
    cases hb : name == k
    · simp only [List.lookup, hb] at h
      have hkb : (k == name) = false := by
        cases hkb2 : k == name
        · rfl
        · have hkn : k = name := by simpa using hkb2
          rw [hkn, beq_self_eq_true] at hb
          cases hb
      simp [List.any_cons, hkb, ih h]
    · have hkn : name = k := by simpa using hb
      simp [List.any_cons, hkn.symm]

theorem categoryBlocks_present (tpls : Templates) (fs : List (String × JValue))
    (name : String) (render : Templates → JValue → Except String (List Block))
    (data : JValue) (bs : List Block)
    (hp : fs.lookup name = some data)
    (hcb : categoryBlocks tpls (JValue.obj fs) name render = Except.ok bs) :
    render tpls data = Except.ok bs := by
  unfold categoryBlocks at hcb
  have h1 : pyIn name (JValue.obj fs) = Except.ok true := by
    simp [pyIn, lookup_some_any fs name data hp]
  have h2 : JValue.getKey (JValue.obj fs) name = Except.ok data := by
    simp [JValue.getKey, hp]
  rw [h1] at hcb
  simp only [exbind_ok, if_true] at hcb
  rw [h2] at hcb
  simpa using hcb

theorem specOrderedBlocks_ok_parts (tpls : Templates) (jd : List (String × JValue))
    (doc : List Block) (hok : specOrderedBlocks tpls jd = Except.ok doc) :
    ∃ a b c d e,
      categoryBlocks tpls ((jd.lookup "objects").getD (JValue.obj [])) "TypeA" specCategoryA = Except.ok a ∧
      categoryBlocks tpls ((jd.lookup "objects").getD (JValue.obj [])) "TypeB" specCategoryB = Except.ok b ∧
      categoryBlocks tpls ((jd.lookup "objects").getD (JValue.obj [])) "TypeC" specCategoryC = Except.ok c ∧
      categoryBlocks tpls ((jd.lookup "objects").getD (JValue.obj [])) "TypeD" specCategoryD = Except.ok d ∧
      categoryBlocks tpls ((jd.lookup "objects").getD (JValue.obj [])) "TypeE" specCategoryE = Except.ok e ∧
      doc = a ++ b ++ c ++ d ++ e := by
  rw [specOrderedBlocks_unfold] at hok
  cases h1 : categoryBlocks tpls ((jd.lookup "objects").getD (JValue.obj [])) "TypeA" specCategoryA <;>
    rw [h1] at hok
  · simp at hok
  · simp only [exbind_ok] at hok
    cases h2 : categoryBlocks tpls ((jd.lookup "objects").getD (JValue.obj [])) "TypeB" specCategoryB <;>
      rw [h2] at hok
    · simp at hok
    · simp only [exbind_ok] at hok
      cases h3 : categoryBlocks tpls ((jd.lookup "objects").getD (JValue.obj [])) "TypeC" specCategoryC <;>
        rw [h3] at hok
      · simp at hok
      · simp only [exbind_ok] at hok
        cases h4 : categoryBlocks tpls ((jd.lookup "objects").getD (JValue.obj [])) "TypeD" specCategoryD <;>
          rw [h4] at hok
        · simp at hok
        · simp only [exbind_ok] at hok
          cases h5 : categoryBlocks tpls ((jd.lookup "objects").getD (JValue.obj [])) "TypeE" specCategoryE <;>
            rw [h5] at hok
          · simp at hok
          · simp only [exbind_ok, expure_eq, Except.ok.injEq] at hok
            exact ⟨_, _, _, _, _, rfl, rfl, rfl, rfl, rfl, hok.symm⟩

theorem specCategoryB_ok_inv (tpls : Templates) (data : JValue) (bs : List Block)
    (h : specCategoryB tpls data = Except.ok bs) :
    ∃ tpl items recs, templateLookup tpls "type_b" = Except.ok tpl ∧
      data.iter = Except.ok items ∧
      items.mapM (typeBRecordBlocks tpl) = Except.ok recs ∧
      bs = add_title [] tpl.title ++ recs.flatten := by
  unfold specCategoryB at h
  cases h1 : templateLookup tpls "type_b" <;> rw [h1] at h
  · simp at h
  · simp only [exbind_ok] at h
    cases h2 : data.iter <;> rw [h2] at h
    · simp at h
    · simp only [exbind_ok] at h
      rename_i tpl items
      cases h3 : items.mapM (typeBRecordBlocks tpl) <;> rw [h3] at h
      · simp at h
      · simp only [exbind_ok, expure_eq, Except.ok.injEq] at h
        exact ⟨tpl, items, _, rfl, rfl, h3, h.symm⟩

theorem specCategoryA_ok_inv (tpls : Templates) (data : JValue) (bs : List Block)
    (h : specCategoryA tpls data = Except.ok bs) :
    ∃ tpl items rows b1 recs b3, templateLookup tpls "type_a" = Except.ok tpl ∧
      data.iter = Except.ok items ∧
      items.mapM typeAItemRow = Except.ok rows ∧
      add_tableBlocks tpl.table1_headers rows (some tpl.table1_title) = Except.ok b1 ∧
      items.mapM (typeARecordBlocks tpl) = Except.ok recs ∧
      add_tableBlocks tpl.table3_headers
        [[JValue.s "Total Devices", JValue.i items.length]] (some tpl.table3_title) = Except.ok b3 ∧
      bs = add_title [] tpl.title ++ b1 ++ recs.flatten ++ b3 := by
  unfold specCategoryA at h
  cases h1 : templateLookup tpls "type_a" <;> rw [h1] at h
  · simp at h
  · simp only [exbind_ok] at h
    cases h2 : data.iter <;> rw [h2] at h
    · simp at h
    · simp only [exbind_ok] at h
      rename_i tpl items
      cases h3 : items.mapM typeAItemRow <;> rw [h3] at h
      · simp at h
      · simp only [exbind_ok] at h
        cases h4 : add_tableBlocks tpl.table1_headers _ (some tpl.table1_title) <;> rw [h4] at h
        · simp at h
        · simp only [exbind_ok] at h
          cases h5 : items.mapM (typeARecordBlocks tpl) <;> rw [h5] at h
          · simp at h
          · simp only [exbind_ok] at h
            cases h6 : add_tableBlocks tpl.table3_headers _ (some tpl.table3_title) <;> rw [h6] at h
            · simp at h
            · simp only [exbind_ok, expure_eq, Except.ok.injEq] at h
              exact ⟨tpl, items, _, _, _, _, rfl, rfl, h3, h4, h5, h6, h.symm⟩

theorem cellTexts_append (xs ys : List Block) :
    cellTexts (xs ++ ys) = cellTexts xs ++ cellTexts ys := by
  simp [cellTexts, List.map_append, List.flatten_append]

theorem padRow_map_text (n : Nat) (vals : List String) :
    (padRow n vals).map Cell.text = vals ++ List.replicate (n - vals.length) "" := by
  unfold padRow
  rw [List.map_append, List.map_map, List.map_replicate]
  exact congrArg₂ (fun a b => a ++ b) (List.map_id vals) rfl

theorem mem_cellTexts_add_tableBlocks (headers : List String) (rows : List (List JValue))
    (title : Option String) (bs : List Block) (r : List JValue) (v : JValue)
    (h : add_tableBlocks headers rows title = Except.ok bs) (hr : r ∈ rows) (hv : v ∈ r) :
    pyStr v ∈ cellTexts bs := by
  unfold add_tableBlocks at h
  cases hm : rows.mapM (fillCells headers.length) <;> rw [hm] at h
  · simp at h
  · simp only [exbind_ok, expure_eq, Except.ok.injEq] at h
    obtain ⟨hle, hcs⟩ := mapM_fillCells_ok_inv headers.length rows _ hm
    rw [← h, hcs, cellTexts_append]
    apply List.mem_append_right
    simp only [cellTexts, blockCellTexts, List.map_cons, List.map_nil, List.flatten_cons,
      List.flatten_nil, List.append_nil]
    apply List.mem_append_right
    apply List.mem_flatten.mpr
    refine ⟨(padRow headers.length (r.map pyStr)).map Cell.text, ?_, ?_⟩
    · exact List.mem_map_of_mem _ (List.mem_map_of_mem _ hr)
    · rw [padRow_map_text]
      exact List.mem_append_left _ (List.mem_map_of_mem pyStr hv)

theorem typeBRecordBlocks_ok_info (tpl : TemplateEntry) (item : JValue) (rb : List Block)
    (h : typeBRecordBlocks tpl item = Except.ok rb) :
    requiredOkB CatTag.B item = true ∧
    ∀ idv, item.getKey "component_id" = Except.ok idv → pyStr idv ∈ cellTexts rb := by
  unfold typeBRecordBlocks at h
  cases h1 : item.getKey "component_id" <;> rw [h1] at h
  · simp at h
  · simp only [exbind_ok] at h
    cases h2 : item.getKey "installation_date" <;> rw [h2] at h
    · simp at h
    · simp only [exbind_ok] at h
      rename_i cid inst
      cases h3 : add_tableBlocks tpl.table1_headers [[cid, inst]] (some tpl.table1_title) <;>
        rw [h3] at h
      · simp at h
      · simp only [exbind_ok] at h
        cases h4 : item.getKey "specs" <;> rw [h4] at h
        · simp at h
        · simp only [exbind_ok] at h
          rename_i b1 specs
          cases h5 : specs.itemsOf <;> rw [h5] at h
          · simp at h
          · simp only [exbind_ok] at h
            rename_i kvs
            cases h6 : add_tableBlocks tpl.table2_headers
                (kvs.map (fun kv => [JValue.s kv.1, kv.2])) (some tpl.table2_title) <;>
              rw [h6] at h
            · simp at h
            · simp only [exbind_ok] at h
              cases h7 : specs.getKey "manufacturer" <;> rw [h7] at h
              · simp at h
              · simp only [exbind_ok] at h
                rename_i b2 manu
                cases h8 : add_tableBlocks tpl.table3_headers
                    [[JValue.s "Manufacturer", manu]] (some tpl.table3_title) <;> rw [h8] at h
                · simp at h
                · simp only [exbind_ok, expure_eq, Except.ok.injEq] at h
                  rename_i b3
                  constructor
                  · simp only [requiredOkB]
                    rw [h1, h2, h4]
                    simp [h5, h7, isOkB]
                  · intro idv hid
                    have hcidv : cid = idv := Except.ok.inj hid
                    subst hcidv
                    rw [← h, cellTexts_append, cellTexts_append]
                    apply List.mem_append_left
                    apply List.mem_append_left
                    exact mem_cellTexts_add_tableBlocks tpl.table1_headers [[cid, inst]]
                      (some tpl.table1_title) b1 [cid, inst] cid h3
                      (List.mem_singleton.mpr rfl) (List.mem_cons_self _ _)

theorem typeCRecordBlocks_ok_info (tpl : TemplateEntry) (item : JValue) (rb : List Block)
    (h : typeCRecordBlocks tpl item = Except.ok rb) :
    requiredOkB CatTag.C item = true ∧
    ∀ idv, item.getKey "transaction_id" = Except.ok idv → pyStr idv ∈ cellTexts rb := by
  unfold typeCRecordBlocks at h
  cases h1 : item.getKey "transaction_id" <;> rw [h1] at h
  · simp at h
  · simp only [exbind_ok] at h
    cases h2 : item.getKey "amount" <;> rw [h2] at h
    · simp at h
    · simp only [exbind_ok] at h
      cases h3 : item.getKey "currency" <;> rw [h3] at h
      · simp at h
      · simp only [exbind_ok] at h
        rename_i tid amt cur
        cases h4 : add_tableBlocks tpl.table1_headers [[tid, amt, cur]]
            (some tpl.table1_title) <;> rw [h4] at h
        · simp at h
        · simp only [exbind_ok] at h
          cases h5 : item.getKey "parties" <;> rw [h5] at h
          · simp at h
          · simp only [exbind_ok] at h
            rename_i b1 parties0
            cases h6 : parties0.iter <;> rw [h6] at h
            · simp at h
            · simp only [exbind_ok] at h
              rename_i parties
              cases h7 : add_tableBlocks tpl.table2_headers
                  (parties.enum.map (fun p => [JValue.i (p.1 + 1), p.2]))
                  (some tpl.table2_title) <;> rw [h7] at h
              · simp at h
              · simp only [exbind_ok] at h
                cases h8 : item.getKey "approved" <;> rw [h8] at h
                · simp at h
                · simp only [exbind_ok] at h
                  rename_i b2 appr
                  cases h9 : add_tableBlocks tpl.table3_headers
                      [[JValue.s "Approved",
                        JValue.s (if pyTruthy appr then "Yes" else "No")]]
                      (some tpl.table3_title) <;> rw [h9] at h
                  · simp at h
                  · simp only [exbind_ok, expure_eq, Except.ok.injEq] at h
                    constructor
                    · simp only [requiredOkB]
                      rw [h1, h2, h3, h5]
                      simp [h6, h8, isOkB]
                    · intro idv hid
                      have htid : tid = idv := Except.ok.inj hid
                      subst htid
                      rw [← h, cellTexts_append, cellTexts_append]
                      apply List.mem_append_left
                      apply List.mem_append_left
                      exact mem_cellTexts_add_tableBlocks tpl.table1_headers [[tid, amt, cur]]
                        (some tpl.table1_title) _ [tid, amt, cur] tid h4
                        (List.mem_singleton.mpr rfl) (List.mem_cons_self _ _)

theorem typeDRecordBlocks_ok_info (tpl : TemplateEntry) (item : JValue) (rb : List Block)
    (h : typeDRecordBlocks tpl item = Except.ok rb) :
    requiredOkB CatTag.D item = true ∧
    ∀ idv, item.getKey "test_id" = Except.ok idv → pyStr idv ∈ cellTexts rb := by
  unfold typeDRecordBlocks at h
  cases h1 : item.getKey "test_id" <;> rw [h1] at h
  · simp at h
  · simp only [exbind_ok] at h
    cases h2 : item.getKey "environment" <;> rw [h2] at h
    · simp at h
    · simp only [exbind_ok] at h
      rename_i tid env
      cases h3 : add_tableBlocks tpl.table1_headers [[tid, env]]
          (some tpl.table1_title) <;> rw [h3] at h
      · simp at h
      · simp only [exbind_ok] at h
        cases h4 : item.getKey "metrics" <;> rw [h4] at h
        · simp at h
        · simp only [exbind_ok] at h
          rename_i b1 metrics
          cases h5 : metrics.itemsOf <;> rw [h5] at h
          · simp at h
          · simp only [exbind_ok] at h
            rename_i kvs
            cases h6 : add_tableBlocks tpl.table2_headers
                (kvs.map (fun kv => [JValue.s (pyTitle (kv.1.replace "_" " ")), kv.2]))
                (some tpl.table2_title) <;> rw [h6] at h
            · simp at h
            · simp only [exbind_ok] at h
              rename_i b2
              cases h7 : env.asStr <;> rw [h7] at h
              · simp at h
              · simp only [exbind_ok] at h
                rename_i envStr
                cases h8 : add_tableBlocks tpl.table3_headers
                    [[JValue.s "Environment Type", JValue.s (pyTitle envStr)]]
                    (some tpl.table3_title) <;> rw [h8] at h
                · simp at h
                · simp only [exbind_ok, expure_eq, Except.ok.injEq] at h
                  constructor
                  · simp only [requiredOkB]
                    rw [h1, h2, h4]
                    simp [h5, h7, isOkB]
                  · intro idv hid
                    have htid : tid = idv := Except.ok.inj hid
                    subst htid
                    rw [← h, cellTexts_append, cellTexts_append]
                    apply List.mem_append_left
                    apply List.mem_append_left
                    exact mem_cellTexts_add_tableBlocks tpl.table1_headers [[tid, env]]
                      (some tpl.table1_title) _ [tid, env] tid h3
                      (List.mem_singleton.mpr rfl) (List.mem_cons_self _ _)

theorem typeERecordBlocks_ok_info (tpl : TemplateEntry) (item : JValue) (rb : List Block)
    (h : typeERecordBlocks tpl item = Except.ok rb) :
    requiredOkB CatTag.E item = true ∧
    ∀ idv, item.getKey "employee_id" = Except.ok idv → pyStr idv ∈ cellTexts rb := by
  unfold typeERecordBlocks at h
  cases h1 : item.getKey "employee_id" <;> rw [h1] at h
  · simp at h
  · simp only [exbind_ok] at h
    cases h2 : item.getKey "department" <;> rw [h2] at h
    · simp at h
    · simp only [exbind_ok] at h
      cases h3 : item.getKey "role" <;> rw [h3] at h
      · simp at h
      · simp only [exbind_ok] at h
        rename_i eid dep rl
        cases h4 : add_tableBlocks tpl.table1_headers [[eid, dep, rl]]
            (some tpl.table1_title) <;> rw [h4] at h
        · simp at h
        · simp only [exbind_ok] at h
          cases h5 : item.getKey "projects" <;> rw [h5] at h
          · simp at h
          · simp only [exbind_ok] at h
            rename_i b1 projects0
            cases h6 : projects0.iter <;> rw [h6] at h
            · simp at h
            · simp only [exbind_ok] at h
              rename_i projects
              cases h7 : add_tableBlocks tpl.table2_headers
                  (projects.enum.map (fun p => [JValue.i (p.1 + 1), p.2]))
                  (some tpl.table2_title) <;> rw [h7] at h
              · simp at h
              · simp only [exbind_ok] at h
                rename_i b2
                cases h8 : add_tableBlocks tpl.table3_headers
                    [[JValue.s "Total Projects", JValue.i projects.length]]
                    (some tpl.table3_title) <;> rw [h8] at h
                · simp at h
                · simp only [exbind_ok, expure_eq, Except.ok.injEq] at h
                  constructor
                  · simp only [requiredOkB]
                    rw [h1, h2, h3, h5]
                    simp [h6, isOkB]
                  · intro idv hid
                    have heid : eid = idv := Except.ok.inj hid
                    subst heid
                    rw [← h, cellTexts_append, cellTexts_append]
                    apply List.mem_append_left
                    apply List.mem_append_left
                    exact mem_cellTexts_add_tableBlocks tpl.table1_headers [[eid, dep, rl]]
                      (some tpl.table1_title) _ [eid, dep, rl] eid h4
                      (List.mem_singleton.mpr rfl) (List.mem_cons_self _ _)

theorem mem_cellTexts_flatten (recs : List (List Block)) (rb : List Block) (t : String)
    (hm : rb ∈ recs) (ht : t ∈ cellTexts rb) : t ∈ cellTexts recs.flatten := by
  induction recs with
  | nil => cases hm
  | cons r rs ih =>
    rw [List.flatten_cons, cellTexts_append]
    cases List.mem_cons.mp hm with
    | inl he => exact List.mem_append_left _ (he ▸ ht)
    | inr hmem => exact List.mem_append_right _ (ih hmem)

theorem typeAItemRow_ok_info (item : JValue) (row : List JValue)
    (h : typeAItemRow item = Except.ok row) :
    (isOkB (item.getKey "id") && isOkB (item.getKey "name") &&
      isOkB (item.getKey "description")) = true ∧
    ∀ idv, item.getKey "id" = Except.ok idv → ∃ rest, row = idv :: rest := by
  unfold typeAItemRow at h
  cases h1 : item.getKey "id" <;> rw [h1] at h
  · simp at h
  · simp only [exbind_ok] at h
    cases h2 : item.getKey "name" <;> rw [h2] at h
    · simp at h
    · simp only [exbind_ok] at h
      cases h3 : item.getKey "description" <;> rw [h3] at h
      · simp at h
      · simp only [exbind_ok, expure_eq, Except.ok.injEq] at h
        rename_i idv0 nm ds
        constructor
        · simp [isOkB]
        · intro idv hid
          have : idv0 = idv := Except.ok.inj hid
          subst this
          exact ⟨[nm, ds], h.symm⟩

theorem typeAParamRow_ok_params (item : JValue) (row : List JValue)
    (h : typeAParamRow item = Except.ok row) :
    (match item.getKey "parameters" with
     | Except.ok p => isOkB (p.getKey "status") && isOkB (p.getKey "priority") &&
                      isOkB (p.getKey "last_updated")
     | Except.error _ => false) = true := by
  unfold typeAParamRow at h
  cases h0 : item.getKey "parameters" <;> rw [h0] at h
  · simp at h
  · simp only [exbind_ok] at h
    rename_i params
    cases h1 : params.getKey "status" <;> rw [h1] at h
    · simp at h
    · simp only [exbind_ok] at h
      cases h2 : params.getKey "priority" <;> rw [h2] at h
      · simp at h
      · simp only [exbind_ok] at h
        cases h3 : params.getKey "last_updated" <;> rw [h3] at h
        · simp at h
        · simp [h1, h2, h3, isOkB]

theorem typeARecordBlocks_ok_param (tpl : TemplateEntry) (item : JValue) (rb : List Block)
    (h : typeARecordBlocks tpl item = Except.ok rb) :
    ∃ pr, typeAParamRow item = Except.ok pr := by
  unfold typeARecordBlocks at h
  cases h1 : typeAParamRow item <;> rw [h1] at h
  · simp at h
  · exact ⟨_, rfl⟩

theorem specCategoryC_ok_inv (tpls : Templates) (data : JValue) (bs : List Block)
    (h : specCategoryC tpls data = Except.ok bs) :
    ∃ tpl items recs, templateLookup tpls "type_c" = Except.ok tpl ∧
      data.iter = Except.ok items ∧
      items.mapM (typeCRecordBlocks tpl) = Except.ok recs ∧
      bs = add_title [] tpl.title ++ recs.flatten := by
  unfold specCategoryC at h
  cases h1 : templateLookup tpls "type_c" <;> rw [h1] at h
  · simp at h
  · simp only [exbind_ok] at h
    cases h2 : data.iter <;> rw [h2] at h
    · simp at h
    · simp only [exbind_ok] at h
      rename_i tpl items
      cases h3 : items.mapM (typeCRecordBlocks tpl) <;> rw [h3] at h
      · simp at h
      · simp only [exbind_ok, expure_eq, Except.ok.injEq] at h
        exact ⟨tpl, items, _, rfl, rfl, h3, h.symm⟩

theorem specCategoryD_ok_inv (tpls : Templates) (data : JValue) (bs : List Block)
    (h : specCategoryD tpls data = Except.ok bs) :
    ∃ tpl items recs, templateLookup tpls "type_d" = Except.ok tpl ∧
      data.iter = Except.ok items ∧
      items.mapM (typeDRecordBlocks tpl) = Except.ok recs ∧
      bs = add_title [] tpl.title ++ recs.flatten := by
  unfold specCategoryD at h
  cases h1 : templateLookup tpls "type_d" <;> rw [h1] at h
  · simp at h
  · simp only [exbind_ok] at h
    cases h2 : data.iter <;> rw [h2] at h
    · simp at h
    · simp only [exbind_ok] at h
      rename_i tpl items
      cases h3 : items.mapM (typeDRecordBlocks tpl) <;> rw [h3] at h
      · simp at h
      · simp only [exbind_ok, expure_eq, Except.ok.injEq] at h
        exact ⟨tpl, items, _, rfl, rfl, h3, h.symm⟩

theorem specCategoryE_ok_inv (tpls : Templates) (data : JValue) (bs : List Block)
    (h : specCategoryE tpls data = Except.ok bs) :
    ∃ tpl items recs, templateLookup tpls "type_e" = Except.ok tpl ∧
      data.iter = Except.ok items ∧
      items.mapM (typeERecordBlocks tpl) = Except.ok recs ∧
      bs = add_title [] tpl.title ++ recs.flatten := by
  unfold specCategoryE at h
  cases h1 : templateLookup tpls "type_e" <;> rw [h1] at h
  · simp at h
  · simp only [exbind_ok] at h
    cases h2 : data.iter <;> rw [h2] at h
    · simp at h
    · simp only [exbind_ok] at h
      rename_i tpl items
      cases h3 : items.mapM (typeERecordBlocks tpl) <;> rw [h3] at h
      · simp at h
      · simp only [exbind_ok, expure_eq, Except.ok.injEq] at h
        exact ⟨tpl, items, _, rfl, rfl, h3, h.symm⟩

theorem specCategoryOf_ok_info (cat : CatTag) (tpls : Templates) (data : JValue)
    (bs : List Block) (items : List JValue) (item : JValue)
    (h : specCategoryOf cat tpls data = Except.ok bs)
    (hiter : data.iter = Except.ok items) (hitem : item ∈ items) :
    isOkB (templateLookup tpls (tplKey cat)) = true ∧
    requiredOkB cat item = true ∧
    ∀ idv, item.getKey (idFieldName cat) = Except.ok idv → pyStr idv ∈ cellTexts bs := by
  cases cat with
  | A =>
    obtain ⟨tpl, items2, rows, b1, recs, b3, htpl, hiter2, hrows, hb1, hrecs, hb3, hbs⟩ :=
      specCategoryA_ok_inv tpls data bs h
    have hsame : items2 = items := Except.ok.inj (hiter2.symm.trans hiter)
    subst hsame
    obtain ⟨row, hrow, hrowmem⟩ := exmapM_ok_mem typeAItemRow items2 rows hrows item hitem
    obtain ⟨rb, hrb, _⟩ := exmapM_ok_mem (typeARecordBlocks tpl) items2 recs hrecs item hitem
    obtain ⟨pr, hpr⟩ := typeARecordBlocks_ok_param tpl item rb hrb
    obtain ⟨hfields, hhead⟩ := typeAItemRow_ok_info item row hrow
    refine ⟨by simp only [tplKey]; rw [htpl]; rfl, ?_, ?_⟩
    · simp only [requiredOkB]
      rw [Bool.and_eq_true]
      exact ⟨hfields, typeAParamRow_ok_params item pr hpr⟩
    · intro idv hid
      obtain ⟨rest, hrest⟩ := hhead idv hid
      rw [hbs, cellTexts_append, cellTexts_append, cellTexts_append]
      apply List.mem_append_left
      apply List.mem_append_left
      apply List.mem_append_right
      exact mem_cellTexts_add_tableBlocks tpl.table1_headers rows
        (some tpl.table1_title) b1 row idv hb1 hrowmem
        (by rw [hrest]; exact List.mem_cons_self _ _)
  | B =>
    obtain ⟨tpl, items2, recs, htpl, hiter2, hrecs, hbs⟩ := specCategoryB_ok_inv tpls data bs h
    have hsame : items2 = items := Except.ok.inj (hiter2.symm.trans hiter)
    subst hsame
    obtain ⟨rb, hrb, hrbmem⟩ := exmapM_ok_mem (typeBRecordBlocks tpl) items2 recs hrecs item hitem
    obtain ⟨hreq, hcells⟩ := typeBRecordBlocks_ok_info tpl item rb hrb
    refine ⟨by simp only [tplKey]; rw [htpl]; rfl, hreq, ?_⟩
    intro idv hid
    rw [hbs, cellTexts_append]
    exact List.mem_append_right _ (mem_cellTexts_flatten recs rb _ hrbmem (hcells idv hid))
  | C =>
    obtain ⟨tpl, items2, recs, htpl, hiter2, hrecs, hbs⟩ := specCategoryC_ok_inv tpls data bs h
    have hsame : items2 = items := Except.ok.inj (hiter2.symm.trans hiter)
    subst hsame
    obtain ⟨rb, hrb, hrbmem⟩ := exmapM_ok_mem (typeCRecordBlocks tpl) items2 recs hrecs item hitem
    obtain ⟨hreq, hcells⟩ := typeCRecordBlocks_ok_info tpl item rb hrb
    refine ⟨by simp only [tplKey]; rw [htpl]; rfl, hreq, ?_⟩
    intro idv hid
    rw [hbs, cellTexts_append]
    exact List.mem_append_right _ (mem_cellTexts_flatten recs rb _ hrbmem (hcells idv hid))
  | D =>
    obtain ⟨tpl, items2, recs, htpl, hiter2, hrecs, hbs⟩ := specCategoryD_ok_inv tpls data bs h
    have hsame : items2 = items := Except.ok.inj (hiter2.symm.trans hiter)
    subst hsame
    obtain ⟨rb, hrb, hrbmem⟩ := exmapM_ok_mem (typeDRecordBlocks tpl) items2 recs hrecs item hitem
    obtain ⟨hreq, hcells⟩ := typeDRecordBlocks_ok_info tpl item rb hrb
    refine ⟨by simp only [tplKey]; rw [htpl]; rfl, hreq, ?_⟩
    intro idv hid
    rw [hbs, cellTexts_append]
    exact List.mem_append_right _ (mem_cellTexts_flatten recs rb _ hrbmem (hcells idv hid))
  | E =>
    obtain ⟨tpl, items2, recs, htpl, hiter2, hrecs, hbs⟩ := specCategoryE_ok_inv tpls data bs h
    have hsame : items2 = items := Except.ok.inj (hiter2.symm.trans hiter)
    subst hsame
    obtain ⟨rb, hrb, hrbmem⟩ := exmapM_ok_mem (typeERecordBlocks tpl) items2 recs hrecs item hitem
    obtain ⟨hreq, hcells⟩ := typeERecordBlocks_ok_info tpl item rb hrb
    refine ⟨by simp only [tplKey]; rw [htpl]; rfl, hreq, ?_⟩
    intro idv hid
    rw [hbs, cellTexts_append]
    exact List.mem_append_right _ (mem_cellTexts_flatten recs rb _ hrbmem (hcells idv hid))

theorem generate_ok_category_info (tpls : Templates) (jd : List (String × JValue))
    (doc : List Block) (fs : List (String × JValue)) (cat : CatTag) (data : JValue)
    (hok : generate_document tpls jd = Except.ok doc)
    (hobj : (jd.lookup "objects").getD (JValue.obj []) = JValue.obj fs)
    (hpresent : fs.lookup (catName cat) = some data) :
    ∃ bs, specCategoryOf cat tpls data = Except.ok bs ∧
      ∀ t, t ∈ cellTexts bs → t ∈ cellTexts doc := by
  rw [generate_document_eq_spec] at hok
  obtain ⟨a, b, c, d, e, hA, hB, hC, hD, hE, hdoc⟩ :=
    specOrderedBlocks_ok_parts tpls jd doc hok
  rw [hobj] at hA hB hC hD hE
  subst hdoc
  cases cat with
  | A =>
    refine ⟨a, categoryBlocks_present tpls fs "TypeA" specCategoryA data a hpresent hA, ?_⟩
    intro t ht
    simp only [cellTexts_append, List.mem_append]
    exact Or.inl (Or.inl (Or.inl (Or.inl ht)))
  | B =>
    refine ⟨b, categoryBlocks_present tpls fs "TypeB" specCategoryB data b hpresent hB, ?_⟩
    intro t ht
    simp only [cellTexts_append, List.mem_append]
    exact Or.inl (Or.inl (Or.inl (Or.inr ht)))
  | C =>
    refine ⟨c, categoryBlocks_present tpls fs "TypeC" specCategoryC data c hpresent hC, ?_⟩
    intro t ht
    simp only [cellTexts_append, List.mem_append]
    exact Or.inl (Or.inl (Or.inr ht))
  | D =>
    refine ⟨d, categoryBlocks_present tpls fs "TypeD" specCategoryD data d hpresent hD, ?_⟩
    intro t ht
    simp only [cellTexts_append, List.mem_append]
    exact Or.inl (Or.inr ht)
  | E =>
    refine ⟨e, categoryBlocks_present tpls fs "TypeE" specCategoryE data e hpresent hE, ?_⟩
    intro t ht
    simp only [cellTexts_append, List.mem_append]
    exact Or.inr ht


/-! ## Claim theorems -/

/-- C1: For every template mapping and input, `generate_document` computes
exactly the spec-ordered block sequence: categories in the fixed order
TypeA, TypeB, TypeC, TypeD, TypeE (only those present in `objects`), within
a category the records in input order, and per record of categories B, C,
D, E the three table groups in the fixed order Table 1, Table 2, Table 3 —
as laid out by `specOrderedBlocks`, `specCategoryA`..`specCategoryE` and
the `type?RecordBlocks` definitions. -/
theorem generate_document_block_order (tpls : Templates) (json_data : List (String × JValue)) :
    generate_document tpls json_data = specOrderedBlocks tpls json_data :=
  generate_document_eq_spec tpls json_data

/-- C2: On a TypeA record list, `process_type_a` emits one section title,
a single Table 1 whose data rows are exactly the per-record
id/name/description triples (one per record, in order), one Table 2 block
per record carrying the parameter row of that record, and a single Table 3 whose
only row is `["Total Devices", n]` with `n` the record count; the extracted
row lists have exactly one entry per record. -/
theorem process_type_a_shape (tpls : Templates) (tpl : TemplateEntry) (doc : List Block)
    (items : List JValue) (triples prms : List (List JValue))
    (htpl : templateLookup tpls "type_a" = Except.ok tpl)
    (htr : items.mapM typeAItemRow = Except.ok triples)
    (hpm : items.mapM typeAParamRow = Except.ok prms)
    (h1 : 3 ≤ tpl.table1_headers.length)
    (h2 : 3 ≤ tpl.table2_headers.length)
    (h3 : 2 ≤ tpl.table3_headers.length) :
    process_type_a tpls doc (JValue.arr items) =
      Except.ok (doc ++ [Block.heading tpl.title, Block.para []] ++
        titledTable tpl.table1_headers triples tpl.table1_title ++
        (prms.map (fun pr => titledTable tpl.table2_headers [pr] tpl.table2_title)).flatten ++
        titledTable tpl.table3_headers
          [[JValue.s "Total Devices", JValue.i items.length]] tpl.table3_title) ∧
    triples.length = items.length ∧ prms.length = items.length := by
  refine ⟨?_, exmapM_ok_length typeAItemRow items triples htr,
    exmapM_ok_length typeAParamRow items prms hpm⟩
  rw [process_type_a_eq]
  unfold specCategoryA
  rw [htpl]
  simp only [exbind_ok, JValue.iter]
  rw [htr]
  simp only [exbind_ok]
  rw [add_tableBlocks_ok tpl.table1_headers triples tpl.table1_title
    (by
      intro r hr
      obtain ⟨x, _, hfx⟩ := exmapM_ok_mem_rev typeAItemRow items triples htr r hr
      rw [typeAItemRow_len x r hfx]
      exact h1)]
  simp only [exbind_ok]
  rw [mapM_typeARecordBlocks tpl h2 items prms hpm]
  simp only [exbind_ok]
  rw [add_tableBlocks_ok tpl.table3_headers
    [[JValue.s "Total Devices", JValue.i items.length]] tpl.table3_title
    (by
      intro r hr
      simp only [List.mem_singleton] at hr
      subst hr
      simpa using h3)]
  simp [add_title, exmap_eq, List.append_assoc]

/-- Witness for C2 at a concrete one-record input under the demo templates. -/
theorem process_type_a_shape_witness :
    process_type_a demoTemplates [] (JValue.arr [demoItemA]) =
      Except.ok ([] ++ [Block.heading demoTypeA.title, Block.para []] ++
        titledTable demoTypeA.table1_headers
          [[JValue.s "D1", JValue.s "Sensor", JValue.s "Temp"]] demoTypeA.table1_title ++
        ([[JValue.s "active", JValue.i 1, JValue.s "2024-01-01"]].map
          (fun pr => titledTable demoTypeA.table2_headers [pr] demoTypeA.table2_title)).flatten ++
        titledTable demoTypeA.table3_headers
          [[JValue.s "Total Devices", JValue.i ([demoItemA] : List JValue).length]]
          demoTypeA.table3_title) ∧
    ([[JValue.s "D1", JValue.s "Sensor", JValue.s "Temp"]] : List (List JValue)).length =
      ([demoItemA] : List JValue).length ∧
    ([[JValue.s "active", JValue.i 1, JValue.s "2024-01-01"]] : List (List JValue)).length =
      ([demoItemA] : List JValue).length :=
  process_type_a_shape demoTemplates demoTypeA [] [demoItemA]
    [[JValue.s "D1", JValue.s "Sensor", JValue.s "Temp"]]
    [[JValue.s "active", JValue.i 1, JValue.s "2024-01-01"]]
    rfl rfl rfl (by decide) (by decide) (by decide)

/-- C3: On the TypeC scenario input of the specification the generated document
contains a table with data row `["T1", "100", "USD"]`, a table with data
rows `["1", "Alice"]` and `["2", "Bob"]` (1-based party indices), and a
table with data row `["Approved", "Yes"]`; with `approved` set to `false`
the row of the last table is `["Approved", "No"]`. -/
theorem typeC_scenario_output :
    isOkB (generate_document demoTemplates inputC3) = true ∧
    containsTableWithRows outC3doc [["T1", "100", "USD"]] = true ∧
    containsTableWithRows outC3doc [["1", "Alice"], ["2", "Bob"]] = true ∧
    containsTableWithRows outC3doc [["Approved", "Yes"]] = true ∧
    containsTableWithRows ((generate_document demoTemplates inputC3f).toOption.getD [])
      [["Approved", "No"]] = true := by decide

/-- C4 counterexample: on an empty TypeA list the output contains no table
with the TypeA Table-2 headers at all — the claimed header-only Table 2 is
never emitted, because the Table-2 loop body runs once per record. -/
theorem empty_typeA_table2_counterexample :
    process_type_a demoTemplates [] (JValue.arr []) = Except.ok emptyTypeAOutput ∧
    containsTableWithHeader emptyTypeAOutput demoTypeA.table2_headers = false := by decide

/-- C4 (amended): an empty TypeA list produces the section title, a Table 1
with zero data rows (header row only), no Table 2 block at all, and a
Table 3 whose single row is `["Total Devices", "0"]`. -/
theorem process_type_a_empty_list (tpls : Templates) (tpl : TemplateEntry) (doc : List Block)
    (htpl : templateLookup tpls "type_a" = Except.ok tpl)
    (h3 : 2 ≤ tpl.table3_headers.length) :
    process_type_a tpls doc (JValue.arr []) =
      Except.ok (doc ++ [Block.heading tpl.title, Block.para []] ++
        titledTable tpl.table1_headers [] tpl.table1_title ++
        titledTable tpl.table3_headers [[JValue.s "Total Devices", JValue.i 0]]
          tpl.table3_title) := by
  rw [process_type_a_eq]
  unfold specCategoryA
  rw [htpl]
  simp only [exbind_ok, JValue.iter]
  rw [List.mapM_nil, List.mapM_nil]
  simp only [exbind_ok, expure_eq]
  rw [add_tableBlocks_ok tpl.table1_headers [] tpl.table1_title (by intro r hr; cases hr)]
  simp only [List.length_nil, Nat.cast_zero]
  rw [add_tableBlocks_ok tpl.table3_headers [[JValue.s "Total Devices", JValue.i 0]]
    tpl.table3_title (by intro r hr; simp at hr; subst hr; simpa using h3)]
  simp [add_title, exmap_eq, List.append_assoc]

/-- Witness for the amended C4 under the demo templates. -/
theorem process_type_a_empty_list_witness :
    process_type_a demoTemplates [] (JValue.arr []) =
      Except.ok ([] ++ [Block.heading demoTypeA.title, Block.para []] ++
        titledTable demoTypeA.table1_headers [] demoTypeA.table1_title ++
        titledTable demoTypeA.table3_headers [[JValue.s "Total Devices", JValue.i 0]]
          demoTypeA.table3_title) :=
  process_type_a_empty_list demoTemplates demoTypeA [] rfl (by decide)

/-- C5: for every category, when the `objects` mapping of the input lacks
that category key, `generate_document` renders exactly the four remaining
categories in their fixed order — the absent category contributes no blocks,
its processor is never invoked, and no error is raised. -/
theorem absent_category_skipped (cat : CatTag) (tpls : Templates)
    (jd : List (String × JValue)) (fs : List (String × JValue))
    (hobj : (jd.lookup "objects").getD (JValue.obj []) = JValue.obj fs)
    (habs : fs.any (fun p => p.1 == catName cat) = false) :
    generate_document tpls jd = withoutCategory cat tpls (JValue.obj fs) := by
  rw [generate_document_eq_spec, specOrderedBlocks_unfold, hobj]
  have hcat : ∀ render, categoryBlocks tpls (JValue.obj fs) (catName cat) render =
      Except.ok [] := by
    intro render
    unfold categoryBlocks
    simp [pyIn, habs]
  cases cat with
  | A =>
    simp only [catName] at hcat
    unfold withoutCategory
    rw [hcat specCategoryA]
    simp only [exbind_ok, List.nil_append]
  | B =>
    simp only [catName] at hcat
    unfold withoutCategory
    rw [hcat specCategoryB]
    simp only [exbind_ok, List.append_nil]
  | C =>
    simp only [catName] at hcat
    unfold withoutCategory
    rw [hcat specCategoryC]
    simp only [exbind_ok, List.append_nil]
  | D =>
    simp only [catName] at hcat
    unfold withoutCategory
    rw [hcat specCategoryD]
    simp only [exbind_ok, List.append_nil]
  | E =>
    simp only [catName] at hcat
    unfold withoutCategory
    rw [hcat specCategoryE]
    simp only [exbind_ok, List.append_nil]

/-- Witness for C5 on a concrete input holding only a TypeA record, with
the absent category instantiated to TypeC. -/
theorem absent_category_skipped_witness :
    generate_document demoTemplates [("objects", JValue.obj demoNoCObjects)] =
      withoutCategory CatTag.C demoTemplates (JValue.obj demoNoCObjects) :=
  absent_category_skipped CatTag.C demoTemplates _ demoNoCObjects rfl (by decide)

/-- C6 counterexample: with the given-but-empty title `some ""`, `add_table`
appends no title paragraph, refuting the claimed "if and only if a title is
given" shape (Python `if title:` is false for the empty string). -/
theorem add_table_empty_title_counterexample :
    ¬ addTableClaimedShape [] [] [] (some "") := by
  intro h
  exact absurd (h [Block.table [[]], Block.para []] rfl) (by decide)

/-- C6 (amended): every successful `add_table` call appends, in order, one
bold title paragraph if and only if a NON-EMPTY title is given, then one
table whose first row is the bold header row followed by exactly one row
per supplied data row in order (cells stringified positionally), then one
trailing blank paragraph. -/
theorem add_table_block_shape (doc : List Block) (headers : List String)
    (rows : List (List JValue)) (title : Option String) (res : List Block)
    (h : add_table doc headers rows title = Except.ok res) :
    res = doc ++ titleBlocksOf title ++
      [Block.table (headerCells headers :: rows.map (fun r => padRow headers.length (r.map pyStr))),
       Block.para []] := by
  rw [add_table_eq] at h
  unfold add_tableBlocks at h
  cases hm : rows.mapM (fillCells headers.length) with
  | error e => rw [hm] at h; simp [exmap_eq] at h
  | ok cs =>
    rw [hm] at h
    obtain ⟨hle, hcs⟩ := mapM_fillCells_ok_inv headers.length rows cs hm
    simp only [exbind_ok, expure_eq, exmap_ok, Except.ok.injEq] at h
    simp [h.symm, hcs, List.append_assoc]

/-- Witness for the amended C6 at a concrete titled call. -/
theorem add_table_block_shape_witness :
    [Block.para [("Ttl", true)], Block.table [[Cell.mk "H" true], [Cell.mk "5" false]],
      Block.para []] =
    [] ++ titleBlocksOf (some "Ttl") ++
      [Block.table (headerCells ["H"] ::
        ([[JValue.i 5]] : List (List JValue)).map
          (fun r => padRow (["H"] : List String).length (r.map pyStr))),
       Block.para []] :=
  add_table_block_shape [] ["H"] [[JValue.i 5]] (some "Ttl") _ rfl

/-- C7: if a record of a category present in the input fails a required
field lookup (or the template mapping lacks the key of that category), the whole
run propagates the error: `generate_document` returns `Except.error`, so
the single final save never executes and no output artifact is produced. -/
theorem missing_required_field_aborts_run (tpls : Templates) (jd : List (String × JValue))
    (fs : List (String × JValue)) (cat : CatTag) (data : JValue)
    (items : List JValue) (item : JValue)
    (hobj : (jd.lookup "objects").getD (JValue.obj []) = JValue.obj fs)
    (hpresent : fs.lookup (catName cat) = some data)
    (hiter : data.iter = Except.ok items)
    (hitem : item ∈ items)
    (hbad : requiredOkB cat item = false ∨ tpls.lookup (tplKey cat) = none) :
    ∃ e, generate_document tpls jd = Except.error e := by
  cases hgen : generate_document tpls jd with
  | error e => exact ⟨e, rfl⟩
  | ok doc =>
    exfalso
    obtain ⟨bs, hspec, _⟩ :=
      generate_ok_category_info tpls jd doc fs cat data hgen hobj hpresent
    obtain ⟨htplok, hreq, _⟩ :=
      specCategoryOf_ok_info cat tpls data bs items item hspec hiter hitem
    cases hbad with
    | inl hb => rw [hreq] at hb; cases hb
    | inr hb =>
      unfold templateLookup at htplok
      rw [hb] at htplok
      simp [isOkB] at htplok

/-- Witness for C7: a TypeC record with no `transaction_id` makes the whole
run fail. -/
theorem missing_required_field_aborts_run_witness :
    ∃ e, generate_document demoTemplates inputBadC = Except.error e :=
  missing_required_field_aborts_run demoTemplates inputBadC
    [("TypeC", JValue.arr [demoBadC])] CatTag.C (JValue.arr [demoBadC])
    [demoBadC] demoBadC rfl rfl rfl (List.mem_cons_self _ _) (Or.inl (by decide))

/-- C8: whenever a run succeeds, the identifying field value of every record
of every present category (id, component_id, transaction_id, test_id or
employee_id) appears, after `str` conversion, among the table cell texts of
the rendered document. -/
theorem identifying_field_rendered (tpls : Templates) (jd : List (String × JValue))
    (doc : List Block) (fs : List (String × JValue)) (cat : CatTag) (data : JValue)
    (items : List JValue) (item : JValue) (idv : JValue)
    (hok : generate_document tpls jd = Except.ok doc)
    (hobj : (jd.lookup "objects").getD (JValue.obj []) = JValue.obj fs)
    (hpresent : fs.lookup (catName cat) = some data)
    (hiter : data.iter = Except.ok items)
    (hitem : item ∈ items)
    (hid : item.getKey (idFieldName cat) = Except.ok idv) :
    pyStr idv ∈ cellTexts doc := by
  obtain ⟨bs, hspec, hsub⟩ :=
    generate_ok_category_info tpls jd doc fs cat data hok hobj hpresent
  obtain ⟨_, _, hcells⟩ :=
    specCategoryOf_ok_info cat tpls data bs items item hspec hiter hitem
  exact hsub _ (hcells idv hid)

/-- Witness for C8 on the TypeC scenario: `"T1"` is a cell text of the
generated document. -/
theorem identifying_field_rendered_witness :
    pyStr (JValue.s "T1") ∈ cellTexts outC3doc :=
  identifying_field_rendered demoTemplates inputC3 outC3doc
    [("TypeC", JValue.arr [demoItemC])] CatTag.C (JValue.arr [demoItemC])
    [demoItemC] demoItemC (JValue.s "T1")
    rfl rfl rfl rfl (List.mem_cons_self _ _) rfl

/-- C9: `add_table` builds the table with exactly `headers.length` columns;
when every data row is at most as long as the header row, the call succeeds,
every rendered data row has exactly `headers.length` cells and its trailing
cells beyond the supplied row are left empty (`padRow` pads with empty
cells, never truncates); any data row strictly longer than the header row
raises an out-of-range cell access instead. -/
theorem add_table_column_mismatch (doc : List Block) (headers : List String)
    (rows : List (List JValue)) (title : Option String) :
    (headerCells headers).length = headers.length ∧
    ((∀ r ∈ rows, r.length ≤ headers.length) →
      add_table doc headers rows title =
        Except.ok (doc ++ titleBlocksOf title ++
          [Block.table (headerCells headers ::
            rows.map (fun r => padRow headers.length (r.map pyStr))), Block.para []]) ∧
      ∀ r ∈ rows, (padRow headers.length (r.map pyStr)).length = headers.length) ∧
    ((∃ r, r ∈ rows ∧ headers.length < r.length) →
      ∃ e, add_table doc headers rows title = Except.error e) ∧
    (∀ r : List JValue, padRow headers.length (r.map pyStr) =
      (r.map pyStr).map (fun v => Cell.mk v false) ++
      List.replicate (headers.length - r.length) (Cell.mk "" false)) := by
  refine ⟨by simp [headerCells], ?_, ?_, ?_⟩
  · intro h
    constructor
    · rw [add_table_eq]
      unfold add_tableBlocks
      rw [mapM_fillCells_ok_of_le headers.length rows h]
      simp [exmap_eq, List.append_assoc]
    · intro r hr
      have := h r hr
      simp [padRow, List.length_append, List.length_map, List.length_replicate]
      omega
  · intro hex
    obtain ⟨e, he⟩ := mapM_fillCells_error_of_long headers.length rows hex
    refine ⟨e, ?_⟩
    rw [add_table_eq]
    unfold add_tableBlocks
    rw [he]
    rfl
  · intro r
    simp [padRow, List.length_map]

/-- Witness for C9: a fitting call succeeds with a padded row, an overlong
row raises. -/
theorem add_table_column_mismatch_witness :
    (add_table [] ["H1", "H2"] [[JValue.s "a"]] none =
      Except.ok ([] ++ titleBlocksOf none ++
        [Block.table (headerCells ["H1", "H2"] ::
          ([[JValue.s "a"]] : List (List JValue)).map
            (fun r => padRow (["H1", "H2"] : List String).length (r.map pyStr))),
         Block.para []])) ∧
    (∃ e, add_table [] ["H1"] [[JValue.s "a", JValue.s "b"]] none = Except.error e) :=
  ⟨((add_table_column_mismatch [] ["H1", "H2"] [[JValue.s "a"]] none).2.1
      (by intro r hr; rw [List.mem_singleton.mp hr]; decide)).1,
   (add_table_column_mismatch [] ["H1"] [[JValue.s "a", JValue.s "b"]] none).2.2.1
     ⟨[JValue.s "a", JValue.s "b"], List.mem_cons_self _ _, by decide⟩⟩

/-- C10: a missing top-level `objects` key is tolerated — an empty document
is saved without error — and keys of `objects` other than the five fixed
category names are silently ignored: filtering them away leaves the output
unchanged. -/
theorem objects_key_and_unknown_categories_tolerated :
    (∀ (tpls : Templates) (jd : List (String × JValue)), jd.lookup "objects" = none →
        generate_document tpls jd = Except.ok []) ∧
    (∀ (tpls : Templates) (fs : List (String × JValue)),
        generate_document tpls [("objects", JValue.obj fs)] =
          generate_document tpls [("objects", JValue.obj (fs.filter (fun p => knownCat p.1)))]) := by
  constructor
  · intro tpls jd h
    rw [generate_document_unfold, h]
    simp [Option.getD, catSection_empty]
  · intro tpls fs
    rw [generate_document_eq_spec, generate_document_eq_spec,
      specOrderedBlocks_unfold, specOrderedBlocks_unfold]
    rw [show (([("objects", JValue.obj fs)] : List (String × JValue)).lookup "objects").getD
        (JValue.obj []) = JValue.obj fs from rfl]
    rw [show (([("objects", JValue.obj (fs.filter (fun p => knownCat p.1)))] :
        List (String × JValue)).lookup "objects").getD (JValue.obj []) =
        JValue.obj (fs.filter (fun p => knownCat p.1)) from rfl]
    rw [categoryBlocks_filter_known tpls fs "TypeA" specCategoryA (by decide),
      categoryBlocks_filter_known tpls fs "TypeB" specCategoryB (by decide),
      categoryBlocks_filter_known tpls fs "TypeC" specCategoryC (by decide),
      categoryBlocks_filter_known tpls fs "TypeD" specCategoryD (by decide),
      categoryBlocks_filter_known tpls fs "TypeE" specCategoryE (by decide)]

/-- Witness for C10: an input without `objects` yields the empty document,
and an unknown category key contributes nothing. -/
theorem objects_key_and_unknown_categories_tolerated_witness :
    generate_document demoTemplates [("other", JValue.i 0)] = Except.ok [] ∧
    generate_document demoTemplates [("objects", JValue.obj [("Foo", JValue.i 1)])] =
      generate_document demoTemplates [("objects", JValue.obj
        ([("Foo", JValue.i 1)].filter (fun p => knownCat p.1)))] :=
  ⟨objects_key_and_unknown_categories_tolerated.1 demoTemplates [("other", JValue.i 0)] rfl,
   objects_key_and_unknown_categories_tolerated.2 demoTemplates [("Foo", JValue.i 1)]⟩
